import Mathlib

/-!
# A shallow embedding of the event-sync core

This development embeds the core of the `event-sync` runtime — the event
bus (`src/core/event-bus.ts`), the aggregate store (`createStore`,
`applyEvent`, `markRecorded`, the generated dispatchers and
`ensureEncodingSafety`) and the broker (`recordEvent`, `sync`, `reset`) —
and proves the behavioural properties stated in the specification.

Modelling conventions:
* JavaScript's single-threaded cooperative scheduling is modelled by
  explicit state passing; each `await`ed external call is a step of a
  state machine or a parameter of an environment record that decides
  whether that call succeeds or throws.
* `Date` values are modelled by their calendar components
  (`DateRep`), which is the information printed by `toISOString` and
  compared by value equality here.
* zod schema `parse` calls are modelled as validation predicates that
  either accept a value unchanged or throw, matching how the store uses
  them; payload `safeParse` is modelled as a function returning either
  the parsed payload or a list of issues.
* repositories are in-memory association lists; an environment record
  injects failures for individual repository writes.
-/

namespace EventSync

/-- The `operation` field of an aggregate event (`src/utils/types.ts`). -/
inductive Op where
  | create
  | update
  | delete
deriving DecidableEq, Repr

/-- The error taxonomy surfaced by the core (`src/utils/errors.ts` plus the
generic runtime failures the code can raise). `storage` stands for an
arbitrary error thrown by a repository write; `configMissing` models the
runtime `TypeError` raised when a non-null assertion such as
`eventByEventType[event.type]!` dereferences `undefined`. -/
inductive Err where
  | typeMismatch (storeType eventType : String)
  | notFound (msg : String)
  | invalidInput (msg : String) (cause : List String)
  | unauthorized (msg : String)
  | terminated
  | storage (tag : Nat)
  | parseFail
  | configMissing
deriving DecidableEq, Repr

/-- A calendar timestamp: the components printed by
`Date.prototype.toISOString` (UTC). Two `Date`s are equal iff their
components are. -/
structure DateRep where
  year : Nat
  month : Nat
  day : Nat
  hour : Nat
  minute : Nat
  second : Nat
  milli : Nat
deriving DecidableEq, Repr

/-- The printing bounds of the fixed-width `YYYY-MM-DDTHH:MM:SS.sssZ`
format: each component fits its digit budget. Every timestamp
`toISOString` renders in that four-digit-year format satisfies this. -/
def DateRep.valid (d : DateRep) : Prop :=
  d.year < 10000 ∧ d.month < 100 ∧ d.day < 100 ∧ d.hour < 100 ∧
    d.minute < 100 ∧ d.second < 100 ∧ d.milli < 1000

instance (d : DateRep) : Decidable d.valid := by
  unfold DateRep.valid; infer_instance

mutual
/-- A JavaScript value as it can appear in an event payload: JSON data
plus `undefined` holes and `Date` objects. Arrays and objects use the
companion types `JsArr` and `JsFields` (lists of values and of
key/value fields). -/
inductive JsValue where
  | undefinedV
  | nul
  | bool (b : Bool)
  | num (n : Int)
  | str (s : String)
  | date (d : DateRep)
  | arr (xs : JsArr)
  | obj (fields : JsFields)

/-- A list of JavaScript array elements. -/
inductive JsArr where
  | nil
  | cons (hd : JsValue) (tl : JsArr)

/-- An ordered list of object fields (JavaScript objects preserve
insertion order and have no duplicate keys). -/
inductive JsFields where
  | nil
  | cons (k : String) (v : JsValue) (tl : JsFields)
end

deriving instance DecidableEq for JsValue
deriving instance DecidableEq for JsArr
deriving instance DecidableEq for JsFields

/-- The keys of an object field list, in order. -/
def JsFields.keys : JsFields → List String
  | .nil => []
  | .cons k _ tl => k :: tl.keys

/-- Field membership: the pair `(k, v)` occurs in the field list. -/
def JsFields.mem (k : String) (v : JsValue) : JsFields → Prop
  | .nil => False
  | .cons k' v' tl => (k' = k ∧ v' = v) ∨ tl.mem k v

/-- An aggregate event (`AggregateEvent` in `src/utils/types.ts`). -/
structure Event where
  id : String
  operation : Op
  aggregateType : String
  aggregateId : String
  type : String
  payload : JsValue
  dispatchedAt : DateRep
  createdBy : Option String
  createdOn : String
  prevId : Option String
  recordedAt : Option DateRep
deriving DecidableEq

/-- An aggregate snapshot: the base metadata of `baseStateSchema` plus the
user-defined part (`data`). -/
structure Snapshot where
  id : String
  createdBy : Option String
  createdOn : String
  lastEventId : String
  createdAt : DateRep
  updatedAt : DateRep
  version : Nat
  lastRecordedAt : Option DateRep
  data : JsValue
deriving DecidableEq

/-- Association-list lookup, modelling `collection[id]`. -/
def alookup {α : Type} (l : List (String × α)) (k : String) : Option α :=
  match l with
  | [] => none
  | (k', v) :: rest => if k' = k then some v else alookup rest k

/-- Association-list insert/overwrite, modelling
`{ ...collection, [id]: value }` (replaces in place, appends if new). -/
def ainsert {α : Type} (l : List (String × α)) (k : String) (v : α) :
    List (String × α) :=
  match l with
  | [] => [(k, v)]
  | (k', v') :: rest =>
    if k' = k then (k, v) :: rest else (k', v') :: ainsert rest k v

/-- Association-list removal, modelling
`const { [id]: _, ...rest } = collection`. -/
def aerase {α : Type} (l : List (String × α)) (k : String) :
    List (String × α) :=
  match l with
  | [] => []
  | (k', v') :: rest =>
    if k' = k then aerase rest k else (k', v') :: aerase rest k

/-! ## Event bus (`src/core/event-bus.ts`)

`createEventBus` wires `source$ → destination$ (ReplaySubject)` and exposes
`emitter$ = resetter$.pipe(startWith(null), switchMap(() => destination$))`.
The embedding keeps the observable consequences of that wiring:
* `buffer` is the `ReplaySubject` replay buffer (since the last reset);
* each subscriber records the events its callback received; a subscriber's
  `closed` flag is set when its rxjs subscription terminates (which happens
  exactly when the error of a `terminate(error)` reaches it through
  `switchMap`; an inner `complete` does not terminate the outer
  subscription because `resetter$` never completes);
* each `onTermination` handler records the invocations of its callback
  (the error channel of a fresh `emitter$` subscription);
* `stopped` is the terminal state of the current `source$`
  (`some (some e)` after `source$.error(e)`, `some none` after
  `source$.complete()`), and `terminated` is the boolean flag checked by
  `dispatch`. -/

/-- One bus subscriber: the log of events delivered to its callback. -/
structure BusSub where
  received : List Event
  closed : Bool
deriving DecidableEq

/-- One `onTermination` handler: the log of invocations of its callback
(`some e` when called with an error). -/
structure TermHandler where
  calls : List (Option Err)
  closed : Bool
deriving DecidableEq

/-- The state of one event bus. -/
structure BusSt where
  buffer : List Event
  subs : List BusSub
  handlers : List TermHandler
  terminated : Bool
  stopped : Option (Option Err)
deriving DecidableEq

/-- A freshly created event bus. -/
def BusSt.init : BusSt :=
  { buffer := [], subs := [], handlers := [], terminated := false,
    stopped := none }

/-- `dispatch(event)`: throws if the bus is terminated, otherwise pushes
the event through `source$` into the replay buffer and to every open
subscriber. -/
def busDispatch (b : BusSt) (e : Event) : Except Err BusSt :=
  if b.terminated then .error .terminated
  else .ok { b with
    buffer := b.buffer ++ [e],
    subs := b.subs.map (fun s =>
      if s.closed then s else { s with received := s.received ++ [e] }) }

/-- `subscribe(fn)`: a new `emitter$` subscription first replays the whole
buffer to `fn`; if the source already errored, the replayed error then
closes the new subscription. -/
def busSubscribe (b : BusSt) : BusSt :=
  { b with subs := b.subs ++
      [{ received := b.buffer,
         closed := (match b.stopped with
           | some (some _) => true
           | _ => false) }] }

/-- `onTermination(cb)`: registers `{ error: cb, complete: cb }` on a fresh
`emitter$` subscription. If the source already errored, the replayed
error invokes `cb` immediately and closes the subscription; a completed
inner observable does not complete the outer one (`resetter$` never
completes), so `cb` is not invoked in that case. -/
def busOnTermination (b : BusSt) : BusSt :=
  { b with handlers := b.handlers ++
      [(match b.stopped with
       | some (some e) => { calls := [some e], closed := true }
       | _ => { calls := [], closed := false })] }

/-- `terminate(error?)`: sets the `terminated` flag and stops `source$`.
If the source was already stopped, `error`/`complete` on it is a no-op.
Stopping with an error delivers the error once to every open
`onTermination` handler and closes every subscription; stopping by
`complete` closes nothing downstream of `switchMap`. -/
def busTerminate (b : BusSt) (eOpt : Option Err) : BusSt :=
  match b.stopped with
  | some _ => { b with terminated := true }
  | none =>
    match eOpt with
    | some e =>
      { b with
        terminated := true
        stopped := some (some e)
        handlers := b.handlers.map (fun h =>
          if h.closed then h else { calls := h.calls ++ [some e], closed := true })
        subs := b.subs.map (fun s => { s with closed := true }) }
    | none => { b with terminated := true, stopped := some none }

/-- `reset()`: replaces `source$` if the bus was terminated, swaps in a
fresh `ReplaySubject` (emptying the replay buffer) and re-points every
still-open subscription at it via `resetter$`. -/
def busReset (b : BusSt) : BusSt :=
  { b with
    terminated := false
    stopped := if b.terminated then none else b.stopped
    buffer := [] }

/-- The bus operations a client can perform, for trace-based reasoning. -/
inductive BusStep where
  | dispatch (e : Event)
  | subscribe
  | onTermination
  | terminate (err : Option Err)
  | reset
deriving DecidableEq

/-- Run one bus operation; a failing `dispatch` leaves the state
unchanged (the exception propagates to the caller). -/
def busRun1 (b : BusSt) : BusStep → BusSt
  | .dispatch e =>
    match busDispatch b e with
    | .ok b' => b'
    | .error _ => b
  | .subscribe => busSubscribe b
  | .onTermination => busOnTermination b
  | .terminate e => busTerminate b e
  | .reset => busReset b

/-- Run a list of bus operations in order. -/
def busRun (b : BusSt) (ss : List BusStep) : BusSt :=
  ss.foldl busRun1 b

/-- The events dispatched in a step list, in order. -/
def dispatchedOf (ss : List BusStep) : List Event :=
  ss.filterMap fun s =>
    match s with
    | .dispatch e => some e
    | _ => none

/-- Steps that neither terminate nor reset the bus. -/
def BusStep.live : BusStep → Prop
  | .dispatch _ => True
  | .subscribe => True
  | .onTermination => True
  | .terminate _ => False
  | .reset => True

/-- Steps other than `terminate`. -/
def BusStep.nonTerminate : BusStep → Prop
  | .terminate _ => False
  | _ => True

/-- Steps other than `reset`. -/
def BusStep.nonReset : BusStep → Prop
  | .reset => False
  | _ => True

/-! ## `ensureEncodingSafety` (`src/unnamed/part_005`, lines 90–97)

`JSON.parse(JSON.stringify(obj), reviver)` is modelled semantically:
`JSON.stringify` maps a JavaScript value to a JSON value (dropping
`undefined` object fields, turning `undefined` array elements into
`null`, and serialising `Date`s through `toISOString`), and `JSON.parse`
with the reviver maps the JSON value back, reviving every string that
matches `/^\d\x7b4\x7d-\d\x7b2\x7d-\d\x7b2\x7dT\d\x7b2\x7d:\d\x7b2\x7d:\d\x7b2\x7d\.\d\x7b3\x7dZ$/`
into a `Date`. The round trip through the intermediate JSON *text* is the
identity on JSON values and is elided. -/

/-- A JSON value (the image of `JSON.stringify`). -/
inductive JValue where
  | nul
  | bool (b : Bool)
  | num (n : Int)
  | str (s : String)
  | arr (xs : List JValue)
  | obj (fields : List (String × JValue))

/-- The decimal digit character for `n < 10`. -/
def digitChar (n : Nat) : Char := Char.ofNat (48 + n)

/-- The numeric value of a decimal digit character. -/
def digitVal (c : Char) : Nat := c.toNat - 48

/-- Two-digit zero-padded decimal rendering. -/
def pad2 (n : Nat) : List Char := [digitChar (n / 10), digitChar (n % 10)]

/-- Three-digit zero-padded decimal rendering. -/
def pad3 (n : Nat) : List Char :=
  [digitChar (n / 100), digitChar ((n / 10) % 10), digitChar (n % 10)]

/-- Four-digit zero-padded decimal rendering. -/
def pad4 (n : Nat) : List Char :=
  [digitChar (n / 1000), digitChar ((n / 100) % 10), digitChar ((n / 10) % 10),
    digitChar (n % 10)]

/-- `Date.prototype.toISOString` for timestamps in the four-digit-year
range: `YYYY-MM-DDTHH:MM:SS.sssZ`. -/
def toISOChars (d : DateRep) : List Char :=
  pad4 d.year ++ '-' :: pad2 d.month ++ '-' :: pad2 d.day ++
    'T' :: pad2 d.hour ++ ':' :: pad2 d.minute ++ ':' :: pad2 d.second ++
    '.' :: pad3 d.milli ++ ['Z']

/-- `toISOChars` packaged as a string. -/
def toISOString (d : DateRep) : String := String.mk (toISOChars d)

/-- The anchored test of the reviver's regular expression
`/^\d\x7b4\x7d-\d\x7b2\x7d-\d\x7b2\x7dT\d\x7b2\x7d:\d\x7b2\x7d:\d\x7b2\x7d\.\d\x7b3\x7dZ$/`. -/
def isoShape : List Char → Bool
  | [y1, y2, y3, y4, a, m1, m2, b, d1, d2, t, h1, h2, c, n1, n2, e, s1, s2,
     p, f1, f2, f3, z] =>
    y1.isDigit && y2.isDigit && y3.isDigit && y4.isDigit &&
    a == '-' && m1.isDigit && m2.isDigit &&
    b == '-' && d1.isDigit && d2.isDigit &&
    t == 'T' && h1.isDigit && h2.isDigit &&
    c == ':' && n1.isDigit && n2.isDigit &&
    e == ':' && s1.isDigit && s2.isDigit &&
    p == '.' && f1.isDigit && f2.isDigit && f3.isDigit &&
    z == 'Z'
  | _ => false

/-- `new Date(s)` on a string of the matching shape: read the printed
components back. (Only ever applied to strings accepted by `isoShape`.) -/
def parseIso : List Char → DateRep
  | [y1, y2, y3, y4, _, m1, m2, _, d1, d2, _, h1, h2, _, n1, n2, _, s1, s2,
     _, f1, f2, f3, _] =>
    { year := digitVal y1 * 1000 + digitVal y2 * 100 + digitVal y3 * 10 +
        digitVal y4
      month := digitVal m1 * 10 + digitVal m2
      day := digitVal d1 * 10 + digitVal d2
      hour := digitVal h1 * 10 + digitVal h2
      minute := digitVal n1 * 10 + digitVal n2
      second := digitVal s1 * 10 + digitVal s2
      milli := digitVal f1 * 100 + digitVal f2 * 10 + digitVal f3 }
  | _ => { year := 0, month := 0, day := 0, hour := 0, minute := 0,
           second := 0, milli := 0 }

mutual
/-- `JSON.stringify` on one value: `undefined` serialises to nothing
(`none`), `Date`s to their ISO string, containers recursively. -/
def jsonOf : JsValue → Option JValue
  | .undefinedV => none
  | .nul => some .nul
  | .bool b => some (.bool b)
  | .num n => some (.num n)
  | .str s => some (.str s)
  | .date d => some (.str (toISOString d))
  | .arr xs => some (.arr (jsonOfArr xs))
  | .obj fs => some (.obj (jsonOfFields fs))

/-- `JSON.stringify` on array elements: an element that serialises to
nothing becomes `null`. -/
def jsonOfArr : JsArr → List JValue
  | .nil => []
  | .cons x xs =>
    (jsonOf x).getD .nul :: jsonOfArr xs

/-- `JSON.stringify` on object fields: a field whose value serialises to
nothing is dropped. -/
def jsonOfFields : JsFields → List (String × JValue)
  | .nil => []
  | .cons k v fs =>
    match jsonOf v with
    | none => jsonOfFields fs
    | some j => (k, j) :: jsonOfFields fs
end

mutual
/-- `JSON.parse` with the date reviver: every string matching the ISO
pattern is revived into a `Date`; everything else parses structurally. -/
def revive : JValue → JsValue
  | .nul => .nul
  | .bool b => .bool b
  | .num n => .num n
  | .str s => if isoShape s.data then .date (parseIso s.data) else .str s
  | .arr xs => .arr (reviveArr xs)
  | .obj fs => .obj (reviveFields fs)

/-- `revive` on array elements. -/
def reviveArr : List JValue → JsArr
  | [] => .nil
  | x :: xs => .cons (revive x) (reviveArr xs)

/-- `revive` on object fields. -/
def reviveFields : List (String × JValue) → JsFields
  | [] => .nil
  | (k, j) :: fs => .cons k (revive j) (reviveFields fs)
end

/-- `ensureEncodingSafety` (`src/unnamed/part_005`):
`JSON.parse(JSON.stringify(obj), reviver)`. The store only applies it to
truthy payloads, for which `JSON.stringify` always produces a value. -/
def ensureEncodingSafety (v : JsValue) : JsValue :=
  ((jsonOf v).map revive).getD .undefinedV

/-- JavaScript truthiness of a payload value (`if (payload) ...`). -/
def jsTruthy : JsValue → Bool
  | .undefinedV => false
  | .nul => false
  | .bool b => b
  | .num n => n != 0
  | .str s => s != ""
  | .date _ => true
  | .arr _ => true
  | .obj _ => true

/-! ## Aggregate store (`createStore` in `src/unnamed/part_005`)

The store owns an in-memory collection (`collection$`), handles to the
optional events repository and optional aggregate repository, and the
optional event bus. Repositories are in-memory association lists; the
`ApplyEnv` record injects failures for the repository writes performed by
one `applyEvent` call (at most one events-repository `create` and one
aggregate-repository write). `stateOk` models the user-supplied
`aggregateSchema` half of `stateSchema.parse` as a validation predicate
on the user-defined part of a snapshot (the typed base fields always
satisfy `baseStateSchema`); `parse` accepts a value unchanged or throws. -/

/-- An account returned by the auth adapter. -/
structure Account where
  id : String
deriving DecidableEq

/-- The configuration of one event kind
(`AggregateEventConfig`): exactly one of `construct`/`reduce` is present,
determined by `operation` (`destruct` is a side-effect hook with no
effect on state and is elided). `payloadSchema` models zod `safeParse`:
either the parsed payload or the list of issues. -/
structure EventCfg where
  eventType : String
  operation : Op
  payloadSchema : Option (JsValue → Except (List String) JsValue)
  dispatchPolicy : Option Account → Option Snapshot → Event → Bool
  construct : Option (JsValue → JsValue)
  reduce : Option (Snapshot → JsValue → JsValue)

/-- The configuration of one aggregate store. `events` is the
`eventByEventType` lookup table keyed by `eventType`; `stateOk` is the
user `aggregateSchema` validation on the user-defined snapshot part. -/
structure StoreConfig where
  aggregateType : String
  events : List (String × EventCfg)
  stateOk : JsValue → Bool

/-- The mutable state owned by (and injected into) one store:
the in-memory collection, the optional events repository, the optional
aggregate repository, and the optional shared event bus. -/
structure StoreSt where
  collection : List (String × Snapshot)
  eventsRepo : Option (List Event)
  aggRepo : Option (List (String × Snapshot))
  bus : Option BusSt
deriving DecidableEq

/-- Failure injection for the repository writes of one `applyEvent`
call: `some e` makes the corresponding `await`ed write throw `e`. -/
structure ApplyEnv where
  eventsCreateFail : Option Err
  aggWriteFail : Option Err
deriving DecidableEq

/-- An environment where every repository write succeeds. -/
def ApplyEnv.ok : ApplyEnv := { eventsCreateFail := none, aggWriteFail := none }

/-- The `try` block of `applyEvent` before persistence: look up the event
config, compute the next snapshot exactly as the `create`/`update`/
`delete` cases do (including `stateSchema.parse`), and produce the
optimistically updated collection. A missing config or constructor
reproduces the runtime `TypeError` of `eventByEventType[event.type]!`.
The `update`/`delete` lookups use `!` in the source; they are reached
only behind the `NotFound` guard, so the `none` case is unreachable
there. -/
def computeNext (cfg : StoreConfig) (event : Event) (st : StoreSt) :
    Except Err (Snapshot × List (String × Snapshot)) :=
  match alookup cfg.events event.type with
  | none => .error .configMissing
  | some ecfg =>
    match event.operation with
    | .create =>
      match ecfg.construct with
      | none => .error .configMissing
      | some construct =>
        let state : Snapshot :=
          { id := event.aggregateId
            createdOn := event.createdOn
            createdBy := event.createdBy
            createdAt := event.dispatchedAt
            updatedAt := event.dispatchedAt
            lastEventId := event.id
            lastRecordedAt := event.recordedAt
            version := 1
            data := construct event.payload }
        if cfg.stateOk state.data then
          .ok (state, ainsert st.collection event.aggregateId state)
        else .error .parseFail
    | .update =>
      match alookup st.collection event.aggregateId with
      | none => .error (.notFound (event.aggregateType ++ ":" ++ event.aggregateId))
      | some currState =>
        match ecfg.reduce with
        | none => .error .configMissing
        | some reduce =>
          let nextState : Snapshot :=
            { id := event.aggregateId
              createdOn := currState.createdOn
              createdBy := currState.createdBy
              createdAt := currState.createdAt
              updatedAt := event.dispatchedAt
              lastEventId := event.id
              lastRecordedAt := event.recordedAt.orElse (fun _ => currState.lastRecordedAt)
              version := currState.version + 1
              data := reduce currState event.payload }
          if cfg.stateOk nextState.data then
            .ok (nextState, ainsert st.collection event.aggregateId nextState)
          else .error .parseFail
    | .delete =>
      match alookup st.collection event.aggregateId with
      | none => .error (.notFound (event.aggregateType ++ ":" ++ event.aggregateId))
      | some state =>
        .ok (state, aerase st.collection event.aggregateId)

/-- `persistAggregateAndPersistAndDispatchEvent` (`src/unnamed/part_005`,
lines 200–212), transcribed with its control flow intact: (a) events
repository `create`, (b) the matching aggregate-repository operation —
where the `update` and `delete` branches `return` and therefore skip
step (c) — and (c) `eventBus.dispatch(event)`. A thrown error carries
the state as mutated so far (`.error (e, partialState)`). -/
def persistAggregateAndPersistAndDispatchEvent (env : ApplyEnv)
    (event : Event) (state : Snapshot) (st : StoreSt) :
    Except (Err × StoreSt) StoreSt :=
  let afterEvents : Except (Err × StoreSt) StoreSt :=
    match st.eventsRepo with
    | none => .ok st
    | some evs =>
      match env.eventsCreateFail with
      | some e => .error (e, st)
      | none => .ok { st with eventsRepo := some (evs ++ [event]) }
  match afterEvents with
  | .error p => .error p
  | .ok st1 =>
    let busStep : StoreSt → Except (Err × StoreSt) StoreSt := fun st2 =>
      match st2.bus with
      | none => .ok st2
      | some b =>
        match busDispatch b event with
        | .ok b' => .ok { st2 with bus := some b' }
        | .error e => .error (e, st2)
    match st1.aggRepo with
    | none => busStep st1
    | some repo =>
      match env.aggWriteFail with
      | some e => .error (e, st1)
      | none =>
        match event.operation with
        | .create =>
          busStep { st1 with aggRepo := some (ainsert repo event.aggregateId state) }
        | .update =>
          .ok { st1 with aggRepo := some (ainsert repo event.aggregateId state) }
        | .delete =>
          .ok { st1 with aggRepo := some (aerase repo event.aggregateId) }

/-- `applyEvent` (`src/unnamed/part_005`, lines 195–275): guard on the
aggregate type and, for non-`create`, on the existence of the snapshot;
then, inside `try`, compute the next snapshot, update the in-memory
collection optimistically, and run the persistence sequence; on any
error thrown inside `try`, terminate the bus with it and restore the
previous collection — without re-throwing. -/
def applyEvent (cfg : StoreConfig) (env : ApplyEnv) (event : Event)
    (st : StoreSt) : Except Err StoreSt :=
  if event.aggregateType ≠ cfg.aggregateType then
    .error (.typeMismatch cfg.aggregateType event.aggregateType)
  else if event.operation ≠ .create ∧ alookup st.collection event.aggregateId = none then
    .error (.notFound (event.aggregateType ++ ":" ++ event.aggregateId))
  else
    let tried : Except (Err × StoreSt) StoreSt :=
      match computeNext cfg event st with
      | .error e => .error (e, st)
      | .ok (state, collection') =>
        persistAggregateAndPersistAndDispatchEvent env event state
          { st with collection := collection' }
    match tried with
    | .ok st' => .ok st'
    | .error (e, stPartial) =>
      .ok { stPartial with
        bus := stPartial.bus.map (fun b => busTerminate b (some e))
        collection := st.collection }

/-- The events repository's `markRecorded(eventId, {recordedAt,
createdBy})` (fake repository semantics, `src/utils/fakes.ts`): find the
event by id — `NotFound` if absent — and set its `recordedAt` and
`createdBy`. -/
def eventsRepoMarkRecorded (events : List Event) (eventId : String)
    (recordedAt : Option DateRep) (createdBy : Option String) :
    Except Err (List Event) :=
  if events.any (fun e => e.id = eventId) then
    .ok (events.map fun e =>
      if e.id = eventId then
        { e with recordedAt := recordedAt, createdBy := createdBy }
      else e)
  else .error (.notFound ("event:" ++ eventId))

/-- Failure injection for the aggregate-repository `update` inside
`markRecorded`. -/
structure RecordEnv where
  aggUpdateFail : Option Err
deriving DecidableEq

/-- A `RecordEnv` where the repository write succeeds. -/
def RecordEnv.ok : RecordEnv := { aggUpdateFail := none }

/-- `markRecorded` (`src/unnamed/part_005`, lines 159–185), with the
partially mutated state carried on errors: guard the aggregate type;
if a snapshot exists, re-parse it with `createdBy := current ?? event's`
and `lastRecordedAt := event.recordedAt`, store it in the collection and
(if configured) the aggregate repository; finally delegate to the events
repository's `markRecorded`. A missing snapshot is silently tolerated. -/
def markRecordedCore (cfg : StoreConfig) (env : RecordEnv) (event : Event)
    (st : StoreSt) : Except (Err × StoreSt) StoreSt :=
  if event.aggregateType ≠ cfg.aggregateType then
    .error (.typeMismatch cfg.aggregateType event.aggregateType, st)
  else
    let afterSnapshot : Except (Err × StoreSt) StoreSt :=
      match alookup st.collection event.aggregateId with
      | none => .ok st
      | some currState =>
        let nextState : Snapshot :=
          { currState with
            createdBy := currState.createdBy.orElse (fun _ => event.createdBy)
            lastRecordedAt := event.recordedAt }
        if cfg.stateOk nextState.data then
          let st1 : StoreSt :=
            { st with collection := ainsert st.collection event.aggregateId nextState }
          match st1.aggRepo with
          | none => .ok st1
          | some repo =>
            match env.aggUpdateFail with
            | some e => .error (e, st1)
            | none =>
              .ok { st1 with aggRepo := some (ainsert repo event.aggregateId nextState) }
        else .error (.parseFail, st)
    match afterSnapshot with
    | .error p => .error p
    | .ok st1 =>
      match st1.eventsRepo with
      | none => .ok st1
      | some evs =>
        match eventsRepoMarkRecorded evs event.id event.recordedAt event.createdBy with
        | .error e => .error (e, st1)
        | .ok evs' => .ok { st1 with eventsRepo := some evs' }

/-- `markRecorded` as seen by a caller that `await`s it: the partial
state of a failed call is discarded and the error re-thrown. -/
def markRecorded (cfg : StoreConfig) (env : RecordEnv) (event : Event)
    (st : StoreSt) : Except Err StoreSt :=
  (markRecordedCore cfg env event st).mapError Prod.fst

/-- The auth-adapter context a dispatcher reads (`getDeviceId`,
`getAccount`). -/
structure AuthCtx where
  deviceId : String
  account : Option Account
deriving DecidableEq

/-- The inner `dispatch` of a generated dispatcher (`src/unnamed/part_005`,
lines 282–321): normalise a truthy payload with `ensureEncodingSafety`;
validate it against the configured payload schema, throwing
`InvalidInput` carrying the issues on failure; build the event from the
auth context, fresh id and clock; check the dispatch policy, throwing
`Unauthorized` on refusal; finally call `applyEvent`. -/
def dispatch (cfg : StoreConfig) (ecfg : EventCfg) (auth : AuthCtx)
    (env : ApplyEnv) (newEventId : String) (now : DateRep)
    (aggregateId : String) (payload : JsValue) (lastEventId : Option String)
    (st : StoreSt) : Except Err StoreSt :=
  let payload1 := if jsTruthy payload then ensureEncodingSafety payload else payload
  let validated : Except Err JsValue :=
    match ecfg.payloadSchema with
    | none => .ok payload1
    | some schema =>
      match schema payload1 with
      | .error issues =>
        .error (.invalidInput ("Invalid payload for event " ++ ecfg.eventType) issues)
      | .ok v => .ok v
  match validated with
  | .error e => .error e
  | .ok payload2 =>
    let event : Event :=
      { id := newEventId
        operation := ecfg.operation
        aggregateType := cfg.aggregateType
        aggregateId := aggregateId
        type := ecfg.eventType
        payload := payload2
        createdBy := auth.account.map Account.id
        createdOn := auth.deviceId
        dispatchedAt := now
        prevId := lastEventId
        recordedAt := none }
    let state := alookup st.collection aggregateId
    if ecfg.dispatchPolicy auth.account state event then
      applyEvent cfg env event st
    else
      .error (.unauthorized ("Account is not authorized to dispatch event " ++ event.type))

/-! ## Broker (`createBroker` in `src/unnamed/part_006`)

### `recordEvent` (lines 125–135)

The broker's bus subscriber. The per-aggregate-type store states are an
association list; per-type configs are a second association list with the
same keys. The `ServerEnv` record decides the outcome of
`eventServerAdapter.record(event)` — `tryCatch` turns a server throw into
an absent value. The `markRecorded` call is not `await`ed, so its own
failure is dropped while its state mutations remain (`markRecordedCore`'s
partial state). -/

/-- The broker state `recordEvent` touches: the current account, whether
an `eventServerAdapter` is configured, and the registered stores. -/
structure BrokerSt where
  account : Option Account
  hasServer : Bool
  stores : List (String × StoreSt)
deriving DecidableEq

/-- The outcome of `eventServerAdapter.record(event)`:
`some recordedEvent` on success, `none` when the server throws
(swallowed by `tryCatch`). -/
structure ServerEnv where
  recordResult : Option Event

/-- The result of one `recordEvent` call: the new broker state and the
list of `record` calls made to the event server. -/
structure RecordOutcome where
  st : BrokerSt
  serverCalls : List Event
deriving DecidableEq

/-- The state a (possibly failing) unawaited `markRecorded` call leaves
behind: its partial mutations remain even when it rejects. -/
def markRecordedRun (cfg : StoreConfig) (env : RecordEnv) (event : Event)
    (st : StoreSt) : StoreSt :=
  match markRecordedCore cfg env event st with
  | .ok st' => st'
  | .error (_, st') => st'

/-- `recordEvent` (`src/unnamed/part_006`): return immediately if the
event already carries `recordedAt`; fetch the account; if an account and
a server adapter are present, call `record(event)` and — on success —
invoke `markRecorded` on the store registered for the event's aggregate
type (a missing store is the runtime `TypeError` of
`stores[event.aggregateType]!`). -/
def recordEvent (cfgs : List (String × StoreConfig)) (senv : ServerEnv)
    (renv : RecordEnv) (event : Event) (bst : BrokerSt) :
    Except Err RecordOutcome :=
  if event.recordedAt.isSome then .ok { st := bst, serverCalls := [] }
  else
    match bst.account with
    | none => .ok { st := bst, serverCalls := [] }
    | some _ =>
      if bst.hasServer then
        match senv.recordResult with
        | none => .ok { st := bst, serverCalls := [event] }
        | some recordedEvent =>
          match alookup bst.stores event.aggregateType,
                alookup cfgs event.aggregateType with
          | some storeSt, some cfg =>
            .ok { st := { bst with
                    stores := ainsert bst.stores event.aggregateType
                      (markRecordedRun cfg renv recordedEvent storeSt) }
                  serverCalls := [event] }
          | _, _ => .error .configMissing
      else .ok { st := bst, serverCalls := [] }

/-! ### `sync` (lines 137–158) and `reset` (lines 213–219)

The single-flight machinery is modelled as a state machine over the
broker's `activeSync` slot, the promises it has handed out, and a log of
the repository/server contacts made by sync bodies. The body of one sync
(for a broker with both `eventsRepository` and `eventServerAdapter`
configured) has four suspension phases, numbered by the awaited call:
0 = `eventsRepository.getUnrecorded()`, 1 = the parallel `recordEvent`s,
2 = `eventsRepository.getLastReceivedEvent()`, 3 = the `tryCatch`ed
`eventServerAdapter.fetch` plus the unawaited `applyEvent`s, the
`activeSync = null` assignment and fulfilment of the promise. Phases
0–2 can reject (the awaited call throws, as decided by the environment);
phase 3 cannot (its fallible call is wrapped in `tryCatch` and the
`applyEvent` promises are not awaited). A rejecting phase settles the
promise **without** clearing `activeSync`. `broker.reset()` never
mentions `activeSync`, so its step is the identity on this state. -/

/-- The status of a promise handed out by `sync()`. -/
inductive PStatus where
  | pending
  | fulfilled
  | rejected (e : Err)
deriving DecidableEq

/-- Association-list lookup keyed by `Nat` (promise ids). -/
def plookup (l : List (Nat × PStatus)) (p : Nat) : Option PStatus :=
  match l with
  | [] => none
  | (q, s) :: rest => if q = p then some s else plookup rest p

/-- The sync-related state of one broker. `returns` logs, in order, the
promise id each `sync()` call returned; `calls` logs the body phases that
contacted a repository or the server. -/
structure SyncSt where
  active : Option Nat
  bodyPos : Option Nat
  promises : List (Nat × PStatus)
  nextId : Nat
  calls : List Nat
  returns : List Nat
deriving DecidableEq

/-- The sync state of a freshly constructed broker. -/
def SyncSt.init : SyncSt :=
  { active := none, bodyPos := none, promises := [], nextId := 0,
    calls := [], returns := [] }

/-- The externally visible sync-related transitions: a `sync()` call, one
suspension step of the in-flight body, and a `broker.reset()`. -/
inductive SyncStep where
  | callSync
  | bodyStep
  | callReset
deriving DecidableEq

/-- One transition. `env k` decides whether the awaited call of body
phase `k` throws. `callSync` with an `activeSync` in place returns it and
does nothing else; otherwise it creates a fresh promise, stores it in
`activeSync` and starts the body. `bodyStep` advances the running body by
one phase (a no-op when no body is running); phase 3 clears `activeSync`
and fulfils the promise, while a throwing phase rejects the promise and
leaves `activeSync` in place. `callReset` is the identity:
`broker.reset()` does not touch `activeSync`. -/
def syncRun1 (env : Nat → Option Err) (st : SyncSt) : SyncStep → SyncSt
  | .callSync =>
    match st.active with
    | some p => { st with returns := st.returns ++ [p] }
    | none =>
      let p := st.nextId
      { st with
        active := some p
        bodyPos := some 0
        promises := st.promises ++ [(p, .pending)]
        nextId := p + 1
        returns := st.returns ++ [p] }
  | .bodyStep =>
    match st.active, st.bodyPos with
    | some p, some k =>
      if k < 3 then
        match env k with
        | some e =>
          { st with
            bodyPos := none
            promises := st.promises.map (fun q =>
              if q.1 = p then (p, .rejected e) else q)
            calls := st.calls ++ [k] }
        | none =>
          { st with bodyPos := some (k + 1), calls := st.calls ++ [k] }
      else
        { st with
          bodyPos := none
          active := none
          promises := st.promises.map (fun q =>
            if q.1 = p then (p, .fulfilled) else q)
          calls := st.calls ++ [k] }
    | _, _ => st
  | .callReset => st

/-- Run a list of sync transitions in order. -/
def syncRun (env : Nat → Option Err) (st : SyncSt) (ss : List SyncStep) :
    SyncSt :=
  ss.foldl (syncRun1 env) st

/-- The number of `sync()` calls in a step list. -/
def syncCallCount (ss : List SyncStep) : Nat :=
  (ss.filter (fun s => s = SyncStep.callSync)).length

/-! ## Trace predicates and invariants -/

/-- Steps that only dispatch or subscribe (the regime of the ordering and
replay guarantee). -/
def BusStep.basic : BusStep → Bool
  | .dispatch _ => true
  | .subscribe => true
  | _ => false

/-- Is this step a `terminate`? -/
def BusStep.isTerminate : BusStep → Bool
  | .terminate _ => true
  | _ => false

/-- Invariant of a live bus in the dispatch/subscribe regime: not
terminated, source not stopped, and every subscriber open with exactly
the replay buffer as its history. -/
def BusSt.liveUniform (b : BusSt) : Prop :=
  b.terminated = false ∧ b.stopped = none ∧
    ∀ s ∈ b.subs, s.closed = false ∧ s.received = b.buffer

/-- Invariant of a bus that has never been terminated: every
`onTermination` handler is open and has not been called. -/
def BusSt.preTermInv (b : BusSt) : Prop :=
  b.terminated = false ∧ b.stopped = none ∧
    ∀ h ∈ b.handlers, h.calls = [] ∧ h.closed = false

/-- Invariant of a bus after `terminate(e)`: terminated, source errored
with `e`, and every handler called exactly once with `e`. -/
def BusSt.postTermInv (e : Err) (b : BusSt) : Prop :=
  b.terminated = true ∧ b.stopped = some (some e) ∧
    ∀ h ∈ b.handlers, h.calls = [some e]

/-- Reachability invariant of the sync machine: promise ids are distinct
and below `nextId`; a pending promise is the active one; and a running
body belongs to a pending active promise. -/
def SyncSt.inv (st : SyncSt) : Prop :=
  (st.promises.map Prod.fst).Nodup ∧
  (∀ q s, (q, s) ∈ st.promises → q < st.nextId) ∧
  (∀ q s, (q, s) ∈ st.promises → s = .pending → st.active = some q) ∧
  (∀ p k, st.active = some p → st.bodyPos = some k →
    plookup st.promises p = some .pending)

/-! ## Concrete fixtures used by the witnesses -/

/-- A sample timestamp. -/
def t0 : DateRep :=
  { year := 2024, month := 1, day := 2, hour := 3, minute := 4, second := 5,
    milli := 6 }

/-- A later sample timestamp. -/
def t1 : DateRep :=
  { year := 2024, month := 1, day := 2, hour := 3, minute := 4, second := 6,
    milli := 0 }

/-- A payload schema accepting exactly objects (issues otherwise). -/
def objSchema : JsValue → Except (List String) JsValue
  | .obj fs => .ok (.obj fs)
  | _ => .error ["Expected object, received something else"]

/-- The `create` event config of the sample `profile` aggregate. -/
def createCfg : EventCfg :=
  { eventType := "profile.create"
    operation := .create
    payloadSchema := some objSchema
    dispatchPolicy := fun _ _ _ => true
    construct := some (fun p => p)
    reduce := none }

/-- The `update` event config of the sample `profile` aggregate. -/
def updateCfg : EventCfg :=
  { eventType := "profile.update"
    operation := .update
    payloadSchema := some objSchema
    dispatchPolicy := fun _ _ _ => true
    construct := none
    reduce := some (fun _ p => p) }

/-- The sample `profile` store configuration. -/
def profileCfg : StoreConfig :=
  { aggregateType := "profile"
    events := [("profile.create", createCfg), ("profile.update", updateCfg)]
    stateOk := fun _ => true }

/-- A sample snapshot for aggregate `a`. -/
def snapA : Snapshot :=
  { id := "a", createdBy := some "acct1", createdOn := "dev1",
    lastEventId := "e0", createdAt := t0, updatedAt := t0, version := 1,
    lastRecordedAt := none, data := JsValue.str "x" }

/-- A second sample snapshot for aggregate `b`. -/
def snapB : Snapshot :=
  { id := "b", createdBy := none, createdOn := "dev2",
    lastEventId := "e9", createdAt := t0, updatedAt := t0, version := 3,
    lastRecordedAt := none, data := JsValue.str "y" }

/-- The sample `create` event that produced `snapA`. -/
def evCreateA : Event :=
  { id := "e0", operation := .create, aggregateType := "profile",
    aggregateId := "a", type := "profile.create",
    payload := JsValue.str "x", dispatchedAt := t0,
    createdBy := some "acct1", createdOn := "dev1", prevId := none,
    recordedAt := none }

/-- A sample `update` event on aggregate `a`. -/
def evUpdateA : Event :=
  { id := "e1", operation := .update, aggregateType := "profile",
    aggregateId := "a", type := "profile.update",
    payload := JsValue.str "z", dispatchedAt := t1,
    createdBy := some "acct1", createdOn := "dev1", prevId := some "e0",
    recordedAt := none }

/-- The snapshot `applyEvent` computes for `evUpdateA` on `snapA`. -/
def snapA1 : Snapshot :=
  { id := "a", createdBy := some "acct1", createdOn := "dev1",
    lastEventId := "e1", createdAt := t0, updatedAt := t1, version := 2,
    lastRecordedAt := none, data := JsValue.str "z" }

/-- The recorded echo of `evCreateA`: the event as returned by the event
server, stamped with `recordedAt`. -/
def evRecA : Event :=
  { evCreateA with recordedAt := some t1 }

/-- A store state holding `snapA`, with both repositories and a fresh
bus configured; the events repository already holds `evCreateA`. -/
def stA : StoreSt :=
  { collection := [("a", snapA)]
    eventsRepo := some [evCreateA]
    aggRepo := some [("a", snapA)]
    bus := some BusSt.init }

/-- A broker state holding the sample `profile` store, with an account
and an event-server adapter configured. -/
def brokerA : BrokerSt :=
  { account := some { id := "acct1" }, hasServer := true,
    stores := [("profile", stA)] }

/-! ## Supporting lemmas -/

theorem alookup_ainsert_self {α : Type} (l : List (String × α)) (k : String)
    (v : α) : alookup (ainsert l k v) k = some v := by
  induction l with
  | nil => simp [ainsert, alookup]
  | cons hd tl ih =>
    obtain ⟨k', v'⟩ := hd
    by_cases hk : k' = k
    · simp [ainsert, hk, alookup]
    · simp [ainsert, hk, alookup, ih]

theorem alookup_ainsert_ne {α : Type} (l : List (String × α)) (k k' : String)
    (v : α) (hk : k' ≠ k) : alookup (ainsert l k v) k' = alookup l k' := by
  induction l with
  | nil => simp [ainsert, alookup, Ne.symm hk]
  | cons hd tl ih =>
    obtain ⟨k0, v0⟩ := hd
    by_cases h0 : k0 = k
    · subst h0
      simp [ainsert, alookup, Ne.symm hk]
    · simp [ainsert, h0, alookup, ih]

theorem computeNext_guard {cfg : StoreConfig} {env : Event} {st : StoreSt}
    {pr : Snapshot × List (String × Snapshot)}
    (h : computeNext cfg env st = .ok pr) :
    ¬(env.operation ≠ Op.create ∧ alookup st.collection env.aggregateId = none) := by
  rintro ⟨hop, hnone⟩
  unfold computeNext at h
  cases halc : alookup cfg.events env.type with
  | none => rw [halc] at h; cases h
  | some ecfg =>
    rw [halc] at h
    cases hop' : env.operation with
    | create => exact hop hop'
    | update => rw [hop'] at h; rw [hnone] at h; cases h
    | delete => rw [hop'] at h; rw [hnone] at h; cases h

/-- **C1** (code bug): the claim requires that, on success, persistence
runs events-repository `create`, then the matching aggregate-repository
operation, then bus dispatch, for *every* operation kind, so that the
in-memory state, both repositories **and the bus** reflect the applied
event. On the update event `evUpdateA` applied to `stA` (aggregate
repository configured, all writes succeeding), the code updates the
collection and both repositories but the `return await
aggregateRepository.update(...)` in
`persistAggregateAndPersistAndDispatchEvent` skips the final
`eventBus.dispatch(event)`: the bus stays in its initial state — it
neither emitted the event (branch (a) fails) nor was terminated with a
rollback (branch (b) fails), contradicting the claim and the function's
own documentation. -/
theorem applyEvent_update_skips_bus_dispatch :
    applyEvent profileCfg ApplyEnv.ok evUpdateA stA = .ok
      { collection := [("a", snapA1)]
        eventsRepo := some [evCreateA, evUpdateA]
        aggRepo := some [("a", snapA1)]
        bus := some BusSt.init } ∧
    BusSt.init.buffer = [] ∧
    BusSt.init.terminated = false ∧
    [("a", snapA1)] ≠ stA.collection :=
  ⟨rfl, rfl, rfl, by decide⟩

/-- **C2**: inside `applyEvent`, (i) an events-repository `create` that
throws after the optimistic in-memory update resolves normally with the
collection restored to its pre-call value, both repositories untouched
and the bus terminated with the thrown error; (ii) an
aggregate-repository write that throws likewise resolves normally with
the collection restored and the bus terminated (the already-performed
events-repository `create` persists); conversely (iii) an aggregate-type
mismatch and (iv) a missing snapshot for a non-`create` operation are
thrown to the caller before any state change (the function produces no
successor state at all). -/
theorem applyEvent_failure_propagation (cfg : StoreConfig) (env : ApplyEnv)
    (event : Event) (st : StoreSt) :
    (∀ e state coll' evs,
      event.aggregateType = cfg.aggregateType →
      computeNext cfg event st = .ok (state, coll') →
      st.eventsRepo = some evs →
      env.eventsCreateFail = some e →
      applyEvent cfg env event st =
        .ok { st with bus := st.bus.map (fun b => busTerminate b (some e)) }) ∧
    (∀ e state coll' evs repo,
      event.aggregateType = cfg.aggregateType →
      computeNext cfg event st = .ok (state, coll') →
      st.eventsRepo = some evs →
      env.eventsCreateFail = none →
      st.aggRepo = some repo →
      env.aggWriteFail = some e →
      applyEvent cfg env event st =
        .ok { st with
          eventsRepo := some (evs ++ [event])
          bus := st.bus.map (fun b => busTerminate b (some e)) }) ∧
    (event.aggregateType ≠ cfg.aggregateType →
      applyEvent cfg env event st =
        .error (.typeMismatch cfg.aggregateType event.aggregateType)) ∧
    (event.aggregateType = cfg.aggregateType →
      event.operation ≠ .create →
      alookup st.collection event.aggregateId = none →
      applyEvent cfg env event st =
        .error (.notFound (event.aggregateType ++ ":" ++ event.aggregateId))) := by
  refine ⟨?_, ?_, ?_, ?_⟩
  · intro e state coll' evs hType hcomp hevs hfail
    unfold applyEvent
    rw [if_neg (by simp [hType]), if_neg (computeNext_guard hcomp), hcomp]
    simp only [persistAggregateAndPersistAndDispatchEvent, hevs, hfail]
  · intro e state coll' evs repo hType hcomp hevs hok hrepo hfail
    unfold applyEvent
    rw [if_neg (by simp [hType]), if_neg (computeNext_guard hcomp), hcomp]
    simp only [persistAggregateAndPersistAndDispatchEvent, hevs, hok, hrepo, hfail]
  · intro hType
    unfold applyEvent
    rw [if_pos hType]
  · intro hType hop hnone
    unfold applyEvent
    rw [if_neg (by simp [hType]), if_pos ⟨hop, hnone⟩]

/-- Witness for C2: on the concrete store `stA`, an events-repository
`create` failing with `storage 7` makes `applyEvent` resolve with the
collection restored and the bus terminated. -/
theorem applyEvent_failure_propagation_witness :
    applyEvent profileCfg
      { eventsCreateFail := some (.storage 7), aggWriteFail := none }
      evUpdateA stA =
      .ok { stA with
        bus := stA.bus.map (fun b => busTerminate b (some (.storage 7))) } :=
  (applyEvent_failure_propagation profileCfg
      { eventsCreateFail := some (.storage 7), aggWriteFail := none }
      evUpdateA stA).1 (.storage 7) snapA1 [("a", snapA1)] [evCreateA]
    rfl rfl rfl rfl

theorem busRun1_basic_step {b : BusSt} {s : BusStep} (hs : s.basic = true)
    (hb : b.liveUniform) :
    (busRun1 b s).liveUniform ∧
      (busRun1 b s).buffer = b.buffer ++ dispatchedOf [s] := by
  obtain ⟨hterm, hstop, hsubs⟩ := hb
  cases s with
  | dispatch e =>
    simp only [busRun1, busDispatch, hterm, Bool.false_eq_true, if_false]
    refine ⟨⟨rfl, hstop, ?_⟩, by simp [dispatchedOf]⟩
    intro sub hmem
    rw [List.mem_map] at hmem
    obtain ⟨s0, hs0, rfl⟩ := hmem
    obtain ⟨hcl, hrec⟩ := hsubs s0 hs0
    simp [hcl, hrec]
  | subscribe =>
    simp only [busRun1, busSubscribe]
    refine ⟨⟨hterm, hstop, ?_⟩, by simp [dispatchedOf]⟩
    intro sub hmem
    rcases List.mem_append.mp hmem with hold | hnew
    · exact hsubs sub hold
    · simp at hnew
      subst hnew
      simp [hstop]
  | onTermination => simp [BusStep.basic] at hs
  | terminate e => simp [BusStep.basic] at hs
  | reset => simp [BusStep.basic] at hs

theorem busRun_basic {ss : List BusStep} (hs : ∀ s ∈ ss, s.basic = true) :
    ∀ b : BusSt, b.liveUniform →
      (busRun b ss).liveUniform ∧
        (busRun b ss).buffer = b.buffer ++ dispatchedOf ss := by
  induction ss with
  | nil => intro b hb; simpa [busRun, dispatchedOf] using hb
  | cons s rest ih =>
    intro b hb
    have hstep := busRun1_basic_step (hs s (by simp)) hb
    have hrest : ∀ t ∈ rest, t.basic = true := fun t ht => hs t (by simp [ht])
    obtain ⟨hlu, hbuf⟩ := ih hrest (busRun1 b s) hstep.1
    have hrun : busRun b (s :: rest) = busRun (busRun1 b s) rest := by
      simp [busRun]
    rw [hrun]
    refine ⟨hlu, ?_⟩
    rw [hbuf, hstep.2]
    cases s <;> simp [dispatchedOf]

/-- **C3**: starting from a fresh bus and any interleaving of dispatches
and subscriptions, (i) the replay buffer lists the dispatched events in
dispatch order; (ii) every subscriber — whenever it attached — has
observed exactly that sequence, so any two events are observed by every
subscriber in dispatch order, the prior events first and each subsequent
event after them; and (iii) a subscriber attaching after the prefix
`ss1` starts with exactly the events dispatched in `ss1`, in order. -/
theorem eventBus_order_and_replay (ss : List BusStep)
    (hs : ∀ s ∈ ss, s.basic = true) :
    (busRun BusSt.init ss).buffer = dispatchedOf ss ∧
    (∀ sub ∈ (busRun BusSt.init ss).subs, sub.received = dispatchedOf ss) ∧
    (∀ ss1 ss2, ss = ss1 ++ BusStep.subscribe :: ss2 →
      ((busRun BusSt.init (ss1 ++ [BusStep.subscribe])).subs.map
          BusSub.received).getLast? = some (dispatchedOf ss1)) := by
  have hinit : BusSt.init.liveUniform := by
    refine ⟨rfl, rfl, ?_⟩
    intro sub hmem
    simp [BusSt.init] at hmem
  obtain ⟨hlu, hbuf⟩ := busRun_basic hs BusSt.init hinit
  have hbuf' : (busRun BusSt.init ss).buffer = dispatchedOf ss := by
    simpa [BusSt.init] using hbuf
  refine ⟨hbuf', ?_, ?_⟩
  · intro sub hmem
    rw [(hlu.2.2 sub hmem).2, hbuf']
  · intro ss1 ss2 hdec
    have hs1 : ∀ s ∈ ss1, s.basic = true := by
      intro s hmem
      exact hs s (by rw [hdec]; exact List.mem_append.mpr (Or.inl hmem))
    obtain ⟨_, hbuf1⟩ := busRun_basic hs1 BusSt.init hinit
    have hbuf1' : (busRun BusSt.init ss1).buffer = dispatchedOf ss1 := by
      simpa [BusSt.init] using hbuf1
    have hsplit : busRun BusSt.init (ss1 ++ [BusStep.subscribe]) =
        busSubscribe (busRun BusSt.init ss1) := by
      simp [busRun, List.foldl_append, busRun1]
    rw [hsplit, busSubscribe]
    rw [show ∀ l : List BusSub, ∀ x : BusSub, l ++ [x] = l.concat x from
      fun l x => (List.concat_eq_append l x).symm]
    simp [List.map_concat, List.getLast?_concat, hbuf1']

/-- Witness for C3: a concrete trace — dispatch, late subscribe,
dispatch — satisfies the hypothesis and hence the ordering and replay
guarantees. -/
theorem eventBus_order_and_replay_witness :
    (∀ s ∈ [BusStep.dispatch evCreateA, BusStep.subscribe,
        BusStep.dispatch evUpdateA], s.basic = true) ∧
    ((busRun BusSt.init [BusStep.dispatch evCreateA, BusStep.subscribe,
        BusStep.dispatch evUpdateA]).buffer =
      dispatchedOf [BusStep.dispatch evCreateA, BusStep.subscribe,
        BusStep.dispatch evUpdateA] ∧
    (∀ sub ∈ (busRun BusSt.init [BusStep.dispatch evCreateA,
        BusStep.subscribe, BusStep.dispatch evUpdateA]).subs,
      sub.received = dispatchedOf [BusStep.dispatch evCreateA,
        BusStep.subscribe, BusStep.dispatch evUpdateA]) ∧
    (∀ ss1 ss2, [BusStep.dispatch evCreateA, BusStep.subscribe,
        BusStep.dispatch evUpdateA] = ss1 ++ BusStep.subscribe :: ss2 →
      ((busRun BusSt.init (ss1 ++ [BusStep.subscribe])).subs.map
          BusSub.received).getLast? = some (dispatchedOf ss1))) :=
  ⟨by decide, eventBus_order_and_replay _ (by decide)⟩

theorem busRun1_preTermInv {b : BusSt} {s : BusStep}
    (hs : s.isTerminate = false) (hb : b.preTermInv) :
    (busRun1 b s).preTermInv := by
  obtain ⟨hterm, hstop, hh⟩ := hb
  cases s with
  | dispatch e =>
    simp only [busRun1, busDispatch, hterm, Bool.false_eq_true, if_false]
    exact ⟨rfl, hstop, hh⟩
  | subscribe => exact ⟨hterm, hstop, hh⟩
  | onTermination =>
    refine ⟨hterm, hstop, ?_⟩
    intro h hmem
    simp only [busRun1, busOnTermination, hstop] at hmem
    rcases List.mem_append.mp hmem with hold | hnew
    · exact hh h hold
    · simp at hnew
      subst hnew
      exact ⟨rfl, rfl⟩
  | terminate e => simp [BusStep.isTerminate] at hs
  | reset =>
    simp only [busRun1, busReset]
    exact ⟨rfl, by simp [hterm, hstop], hh⟩

theorem busRun_preTermInv {ss : List BusStep}
    (hs : ∀ s ∈ ss, s.isTerminate = false) :
    ∀ b : BusSt, b.preTermInv → (busRun b ss).preTermInv := by
  induction ss with
  | nil => intro b hb; simpa [busRun] using hb
  | cons s rest ih =>
    intro b hb
    have hstep := busRun1_preTermInv (hs s (by simp)) hb
    have hrest : ∀ t ∈ rest, t.isTerminate = false := fun t ht => hs t (by simp [ht])
    have hrun : busRun b (s :: rest) = busRun (busRun1 b s) rest := by
      simp [busRun]
    rw [hrun]
    exact ih hrest _ hstep

theorem busTerminate_postTermInv {b : BusSt} (e : Err) (hb : b.preTermInv) :
    (busTerminate b (some e)).postTermInv e ∧
    (busTerminate b (some e)).subs.map BusSub.received =
      b.subs.map BusSub.received := by
  obtain ⟨hterm, hstop, hh⟩ := hb
  refine ⟨⟨?_, ?_, ?_⟩, ?_⟩
  · simp [busTerminate, hstop]
  · simp [busTerminate, hstop]
  · intro h hmem
    simp only [busTerminate, hstop] at hmem
    rw [List.mem_map] at hmem
    obtain ⟨h0, h0mem, rfl⟩ := hmem
    obtain ⟨hcalls, hclosed⟩ := hh h0 h0mem
    simp [hclosed, hcalls]
  · simp [busTerminate, hstop, List.map_map]

theorem busRun1_postTermInv {e : Err} {b : BusSt} {s : BusStep}
    (hs : s ≠ BusStep.reset) (hb : b.postTermInv e) :
    (busRun1 b s).postTermInv e := by
  obtain ⟨hterm, hstop, hh⟩ := hb
  cases s with
  | dispatch ev =>
    simp only [busRun1, busDispatch, hterm, if_true]
    exact ⟨hterm, hstop, hh⟩
  | subscribe => exact ⟨hterm, hstop, hh⟩
  | onTermination =>
    refine ⟨hterm, hstop, ?_⟩
    intro h hmem
    simp only [busRun1, busOnTermination, hstop] at hmem
    rcases List.mem_append.mp hmem with hold | hnew
    · exact hh h hold
    · simp at hnew
      subst hnew
      rfl
  | terminate eo =>
    simp only [busRun1, busTerminate, hstop]
    exact ⟨rfl, rfl, hh⟩
  | reset => exact absurd rfl hs

theorem busRun_postTermInv {e : Err} {ss : List BusStep}
    (hs : ∀ s ∈ ss, s ≠ BusStep.reset) :
    ∀ b : BusSt, b.postTermInv e → (busRun b ss).postTermInv e := by
  induction ss with
  | nil => intro b hb; simpa [busRun] using hb
  | cons s rest ih =>
    intro b hb
    have hstep := busRun1_postTermInv (hs s (by simp)) hb
    have hrest : ∀ t ∈ rest, t ≠ BusStep.reset := fun t ht => hs t (by simp [ht])
    have hrun : busRun b (s :: rest) = busRun (busRun1 b s) rest := by
      simp [busRun]
    rw [hrun]
    exact ih hrest _ hstep

/-- **C8**: starting from a fresh bus, after any never-terminated prefix
`pre`, a `terminate (some e)` followed by any reset-free continuation
`post` yields a state in which (i) every handler ever registered through
`onTermination` — before or after the termination — has been invoked
exactly once, with the terminal error; (ii) the termination itself
delivered nothing to ordinary subscribers (their observation logs are
exactly as before the terminate); and (iii) every subsequent
`dispatch` call fails with the termination error. -/
theorem eventBus_termination (pre post : List BusStep) (e : Err)
    (hpre : ∀ s ∈ pre, s.isTerminate = false)
    (hpost : ∀ s ∈ post, s ≠ BusStep.reset) :
    (∀ h ∈ (busRun BusSt.init
        (pre ++ BusStep.terminate (some e) :: post)).handlers,
      h.calls = [some e]) ∧
    ((busRun BusSt.init (pre ++ [BusStep.terminate (some e)])).subs.map
        BusSub.received =
      (busRun BusSt.init pre).subs.map BusSub.received) ∧
    (∀ ev, busDispatch
        (busRun BusSt.init (pre ++ BusStep.terminate (some e) :: post)) ev =
      .error .terminated) := by
  have hinit : BusSt.init.preTermInv := by
    refine ⟨rfl, rfl, ?_⟩
    intro h hmem
    simp [BusSt.init] at hmem
  have hpreInv := busRun_preTermInv hpre BusSt.init hinit
  obtain ⟨hTpost, hTsubs⟩ := busTerminate_postTermInv e hpreInv
  have hsplit : busRun BusSt.init (pre ++ BusStep.terminate (some e) :: post)
      = busRun (busTerminate (busRun BusSt.init pre) (some e)) post := by
    simp [busRun, List.foldl_append, busRun1]
  have hfinal := busRun_postTermInv hpost _ hTpost
  refine ⟨?_, ?_, ?_⟩
  · intro h hmem
    rw [hsplit] at hmem
    exact hfinal.2.2 h hmem
  · have hsplit1 : busRun BusSt.init (pre ++ [BusStep.terminate (some e)])
        = busTerminate (busRun BusSt.init pre) (some e) := by
      simp [busRun, List.foldl_append, busRun1]
    rw [hsplit1]
    exact hTsubs
  · intro ev
    rw [hsplit]
    simp [busDispatch, hfinal.1]

/-- Witness for C8: a concrete trace with a handler and subscriber
registered before termination and a dispatch and late handler after. -/
theorem eventBus_termination_witness :
    (∀ s ∈ [BusStep.subscribe, BusStep.onTermination,
        BusStep.dispatch evCreateA], s.isTerminate = false) ∧
    (∀ s ∈ [BusStep.dispatch evUpdateA, BusStep.onTermination],
      s ≠ BusStep.reset) ∧
    ((∀ h ∈ (busRun BusSt.init
        ([BusStep.subscribe, BusStep.onTermination, BusStep.dispatch evCreateA]
          ++ BusStep.terminate (some (Err.storage 3)) ::
            [BusStep.dispatch evUpdateA, BusStep.onTermination])).handlers,
      h.calls = [some (Err.storage 3)]) ∧
    ((busRun BusSt.init
        ([BusStep.subscribe, BusStep.onTermination, BusStep.dispatch evCreateA]
          ++ [BusStep.terminate (some (Err.storage 3))])).subs.map
        BusSub.received =
      (busRun BusSt.init [BusStep.subscribe, BusStep.onTermination,
        BusStep.dispatch evCreateA]).subs.map BusSub.received) ∧
    (∀ ev, busDispatch
        (busRun BusSt.init
          ([BusStep.subscribe, BusStep.onTermination, BusStep.dispatch evCreateA]
            ++ BusStep.terminate (some (Err.storage 3)) ::
              [BusStep.dispatch evUpdateA, BusStep.onTermination])) ev =
      .error .terminated)) :=
  ⟨by decide, by decide,
    eventBus_termination _ _ (Err.storage 3) (by decide) (by decide)⟩

theorem plookup_some_mem {l : List (Nat × PStatus)} {p : Nat} {s : PStatus}
    (h : plookup l p = some s) : (p, s) ∈ l := by
  induction l with
  | nil => cases h
  | cons hd tl ih =>
    obtain ⟨q, t⟩ := hd
    by_cases hq : q = p
    · subst hq
      simp [plookup] at h
      subst h
      simp
    · simp [plookup, hq] at h
      simp [ih h]

theorem plookup_append_fresh (l : List (Nat × PStatus)) (p : Nat)
    (s : PStatus) (h : ∀ q t, (q, t) ∈ l → q ≠ p) :
    plookup (l ++ [(p, s)]) p = some s := by
  induction l with
  | nil => simp [plookup]
  | cons hd tl ih =>
    obtain ⟨q, t⟩ := hd
    have hq : q ≠ p := h q t (by simp)
    simp only [List.cons_append, plookup, hq, if_false]
    exact ih fun q' t' hm => h q' t' (by simp [hm])

theorem keys_map_set (l : List (Nat × PStatus)) (p : Nat) (s' : PStatus) :
    (l.map fun r => if r.1 = p then (p, s') else r).map Prod.fst =
      l.map Prod.fst := by
  induction l with
  | nil => rfl
  | cons hd tl ih =>
    obtain ⟨q, t⟩ := hd
    by_cases hq : q = p
    · subst hq; simp [ih]
    · simp [hq, ih]

theorem mem_map_set {l : List (Nat × PStatus)} {p : Nat} {sv : PStatus}
    {q : Nat} {s : PStatus}
    (h : (q, s) ∈ l.map fun r => if r.1 = p then (p, sv) else r) :
    (q = p ∧ s = sv) ∨ ((q, s) ∈ l ∧ q ≠ p) := by
  rw [List.mem_map] at h
  obtain ⟨⟨q0, s0⟩, hm, himg⟩ := h
  dsimp only at himg
  by_cases hq0 : q0 = p
  · rw [if_pos hq0] at himg
    injection himg with h1 h2
    exact Or.inl ⟨h1.symm, h2.symm⟩
  · rw [if_neg hq0] at himg
    injection himg with h1 h2
    subst h1
    subst h2
    exact Or.inr ⟨hm, hq0⟩

theorem syncInv_init : SyncSt.init.inv := by
  refine ⟨?_, ?_, ?_, ?_⟩ <;> simp [SyncSt.init]

theorem syncRun1_inv (env : Nat → Option Err) {st : SyncSt} (hinv : st.inv)
    (s : SyncStep) : (syncRun1 env st s).inv := by
  obtain ⟨hnd, hlt, hpend, hbody⟩ := hinv
  cases s with
  | callReset => exact ⟨hnd, hlt, hpend, hbody⟩
  | callSync =>
    cases hact : st.active with
    | some p =>
      simp only [syncRun1, hact]
      refine ⟨hnd, hlt, ?_, ?_⟩
      · intro q s hmem hp
        exact hact ▸ hpend q s hmem hp
      · intro q k hq hk
        exact hbody q k (hact.trans hq) hk
    | none =>
      simp only [syncRun1, hact]
      have hfresh : ∀ q t, (q, t) ∈ st.promises → q ≠ st.nextId :=
        fun q t hm => Nat.ne_of_lt (hlt q t hm)
      refine ⟨?_, ?_, ?_, ?_⟩
      · rw [List.map_append]
        simp only [List.map_cons, List.map_nil]
        rw [List.nodup_append]
        refine ⟨hnd, by simp, ?_⟩
        intro q hq hq1
        simp only [List.mem_singleton] at hq1
        subst hq1
        rw [List.mem_map] at hq
        obtain ⟨⟨q0, t⟩, hm, hfst⟩ := hq
        exact hfresh q0 t hm hfst
      · intro q s hmem
        rcases List.mem_append.mp hmem with h | h
        · exact Nat.lt_succ_of_lt (hlt q s h)
        · simp only [List.mem_singleton] at h
          injection h with h1 _
          subst h1
          exact Nat.lt_succ_self _
      · intro q s hmem hp
        rcases List.mem_append.mp hmem with h | h
        · exact absurd (hact ▸ hpend q s h hp) (by simp)
        · simp only [List.mem_singleton] at h
          injection h with h1 _
          subst h1
          rfl
      · intro q k hq _
        injection hq with hq
        subst hq
        exact plookup_append_fresh st.promises st.nextId .pending hfresh
  | bodyStep =>
    cases hact : st.active with
    | none =>
      simp only [syncRun1, hact]
      exact ⟨hnd, hlt, hpend, hbody⟩
    | some p =>
      cases hbp : st.bodyPos with
      | none =>
        simp only [syncRun1, hact, hbp]
        exact ⟨hnd, hlt, hpend, hbody⟩
      | some k =>
        have hpl : plookup st.promises p = some .pending := hbody p k hact hbp
        have hpmem : (p, PStatus.pending) ∈ st.promises := plookup_some_mem hpl
        simp only [syncRun1, hact, hbp]
        by_cases hk : k < 3
        · rw [if_pos hk]
          cases henv : env k with
          | some e =>
            refine ⟨?_, ?_, ?_, ?_⟩
            · rw [keys_map_set]
              exact hnd
            · intro q s hmem
              rcases mem_map_set hmem with ⟨hq1, _⟩ | ⟨hm, _⟩
              · rw [hq1]
                exact hlt p .pending hpmem
              · exact hlt q s hm
            · intro q s hmem hp
              rcases mem_map_set hmem with ⟨_, hs1⟩ | ⟨hm, _⟩
              · rw [hs1] at hp
                exact PStatus.noConfusion hp
              · exact hact ▸ hpend q s hm hp
            · intro q k1 _ hk1
              exact Option.noConfusion hk1
          | none =>
            refine ⟨hnd, hlt, fun q s hm hp => hact ▸ hpend q s hm hp, ?_⟩
            intro q k1 hq _
            injection hq with hq
            subst hq
            exact hpl
        · rw [if_neg hk]
          refine ⟨?_, ?_, ?_, ?_⟩
          · rw [keys_map_set]
            exact hnd
          · intro q s hmem
            rcases mem_map_set hmem with ⟨hq1, _⟩ | ⟨hm, _⟩
            · rw [hq1]
              exact hlt p .pending hpmem
            · exact hlt q s hm
          · intro q s hmem hp
            rcases mem_map_set hmem with ⟨_, hs1⟩ | ⟨hm, hqp⟩
            · rw [hs1] at hp
              exact PStatus.noConfusion hp
            · have h1 := (hact.symm.trans (hpend q s hm hp))
              injection h1 with h1
              exact absurd h1.symm hqp
          · intro q k1 hq _
            exact Option.noConfusion hq

theorem syncRun_inv (env : Nat → Option Err) (ss : List SyncStep) :
    ∀ st : SyncSt, st.inv → (syncRun env st ss).inv := by
  induction ss with
  | nil => intro st h; simpa [syncRun] using h
  | cons s rest ih =>
    intro st h
    have hrun : syncRun env st (s :: rest) = syncRun env (syncRun1 env st s) rest := by
      simp [syncRun]
    rw [hrun]
    exact ih _ (syncRun1_inv env h s)

theorem syncRun_replicate_callSync (env : Nat → Option Err) (p : Nat) :
    ∀ n : Nat, ∀ st : SyncSt, st.active = some p →
      syncRun env st (List.replicate n SyncStep.callSync) =
        { st with returns := st.returns ++ List.replicate n p } := by
  intro n
  induction n with
  | zero => intro st _; simp [syncRun]
  | succ n ih =>
    intro st hact
    rw [List.replicate_succ]
    have hstep : syncRun1 env st SyncStep.callSync =
        { st with returns := st.returns ++ [p] } := by
      simp [syncRun1, hact]
    have hrun : syncRun env st (SyncStep.callSync :: List.replicate n SyncStep.callSync) =
        syncRun env (syncRun1 env st SyncStep.callSync)
          (List.replicate n SyncStep.callSync) := by
      simp [syncRun]
    rw [hrun, hstep, ih _ (by simp [hact])]
    simp [List.replicate_succ]

/-- **C7**: the sync machine is single-flight. In every reachable broker
state: (i) while `activeSync` holds an unresolved promise `p`, a
`sync()` call — and any number of repeated `sync()` calls — returns `p`
and changes nothing but the log of returned promises: no new promise, no
body start, no repository or server contact; and (ii) a `sync()` call
can only create fresh work when `activeSync` is empty, and then every
previously handed-out promise has already settled. -/
theorem sync_single_flight (env : Nat → Option Err) (ss : List SyncStep)
    (st : SyncSt) (hst : st = syncRun env SyncSt.init ss) :
    (∀ p, st.active = some p →
      plookup st.promises p = some PStatus.pending →
      (syncRun1 env st SyncStep.callSync =
        { st with returns := st.returns ++ [p] }) ∧
      (∀ n, syncRun env st (List.replicate n SyncStep.callSync) =
        { st with returns := st.returns ++ List.replicate n p })) ∧
    (st.active = none →
      ∀ q s, (q, s) ∈ st.promises → s ≠ PStatus.pending) := by
  have hinv : st.inv := by
    rw [hst]
    exact syncRun_inv env ss SyncSt.init syncInv_init
  constructor
  · intro p hact _
    refine ⟨by simp [syncRun1, hact], fun n => syncRun_replicate_callSync env p n st hact⟩
  · intro hact q s hmem hp
    have := hinv.2.2.1 q s hmem hp
    rw [hact] at this
    cases this

/-- Witness for C7: after one `sync()` call the promise `0` is pending
and in flight; further calls return it unchanged. -/
theorem sync_single_flight_witness :
    ((syncRun (fun _ => none) SyncSt.init [SyncStep.callSync]).active = some 0 ∧
      plookup (syncRun (fun _ => none) SyncSt.init
        [SyncStep.callSync]).promises 0 = some PStatus.pending) ∧
    ((syncRun1 (fun _ => none)
        (syncRun (fun _ => none) SyncSt.init [SyncStep.callSync])
        SyncStep.callSync =
      { syncRun (fun _ => none) SyncSt.init [SyncStep.callSync] with
        returns := (syncRun (fun _ => none) SyncSt.init
          [SyncStep.callSync]).returns ++ [0] }) ∧
    (∀ n, syncRun (fun _ => none)
        (syncRun (fun _ => none) SyncSt.init [SyncStep.callSync])
        (List.replicate n SyncStep.callSync) =
      { syncRun (fun _ => none) SyncSt.init [SyncStep.callSync] with
        returns := (syncRun (fun _ => none) SyncSt.init
          [SyncStep.callSync]).returns ++ List.replicate n 0 })) :=
  ⟨⟨by decide, by decide⟩,
    (sync_single_flight (fun _ => none) [SyncStep.callSync] _ rfl).1 0
      (by decide) (by decide)⟩

theorem sync_sticky_aux (env : Nat → Option Err) (p : Nat) (e : Err) :
    ∀ post : List SyncStep, ∀ st : SyncSt,
      st.active = some p →
      plookup st.promises p = some (PStatus.rejected e) →
      st.bodyPos = none →
      (syncRun env st post).active = some p ∧
      plookup (syncRun env st post).promises p = some (PStatus.rejected e) ∧
      (syncRun env st post).bodyPos = none ∧
      (syncRun env st post).calls = st.calls ∧
      (syncRun env st post).returns =
        st.returns ++ List.replicate (syncCallCount post) p := by
  intro post
  induction post with
  | nil =>
    intro st hact hrej hbody
    exact ⟨by simpa [syncRun] using hact, by simpa [syncRun] using hrej,
      by simpa [syncRun] using hbody, by simp [syncRun],
      by simp [syncRun, syncCallCount]⟩
  | cons s rest ih =>
    intro st hact hrej hbody
    have hrun : syncRun env st (s :: rest) = syncRun env (syncRun1 env st s) rest := by
      simp [syncRun]
    cases s with
    | callSync =>
      have hstep : syncRun1 env st SyncStep.callSync =
          { st with returns := st.returns ++ [p] } := by
        simp [syncRun1, hact]
      rw [hrun, hstep]
      obtain ⟨h1, h2, h3, h4, h5⟩ := ih { st with returns := st.returns ++ [p] }
        (by simp [hact]) (by simpa using hrej) (by simpa using hbody)
      refine ⟨h1, h2, h3, by simpa using h4, ?_⟩
      rw [h5]
      simp [syncCallCount, List.filter, List.append_assoc, List.replicate_succ]
    | bodyStep =>
      have hstep : syncRun1 env st SyncStep.bodyStep = st := by
        simp [syncRun1, hact, hbody]
      rw [hrun, hstep]
      obtain ⟨h1, h2, h3, h4, h5⟩ := ih st hact hrej hbody
      refine ⟨h1, h2, h3, h4, ?_⟩
      rw [h5]
      simp [syncCallCount, List.filter]
    | callReset =>
      have hstep : syncRun1 env st SyncStep.callReset = st := rfl
      rw [hrun, hstep]
      obtain ⟨h1, h2, h3, h4, h5⟩ := ih st hact hrej hbody
      refine ⟨h1, h2, h3, h4, ?_⟩
      rw [h5]
      simp [syncCallCount, List.filter]

/-- **C10**: once the promise of a sync body rejects — a body phase such
as `getUnrecorded` or `getLastReceivedEvent` threw — `activeSync` is
never cleared: in every continuation, including `broker.reset()` steps,
`activeSync` still holds the same rejected promise, every further
`sync()` call returns exactly that promise, and no further repository or
server contact is ever made by the sync path. -/
theorem sync_rejection_sticky (env : Nat → Option Err)
    (pre post : List SyncStep) (p : Nat) (e : Err) (st st' : SyncSt)
    (hst : st = syncRun env SyncSt.init pre)
    (hst' : st' = syncRun env st post)
    (hact : st.active = some p)
    (hrej : plookup st.promises p = some (PStatus.rejected e)) :
    st'.active = some p ∧
    plookup st'.promises p = some (PStatus.rejected e) ∧
    st'.calls = st.calls ∧
    st'.returns = st.returns ++ List.replicate (syncCallCount post) p := by
  have hinv : st.inv := by
    rw [hst]
    exact syncRun_inv env pre SyncSt.init syncInv_init
  have hbody : st.bodyPos = none := by
    cases hbp : st.bodyPos with
    | none => rfl
    | some k =>
      have := hinv.2.2.2 p k hact hbp
      rw [hrej] at this
      cases this
  obtain ⟨h1, h2, _, h4, h5⟩ := sync_sticky_aux env p e post st hact hrej hbody
  rw [hst']
  exact ⟨h1, h2, h4, h5⟩

/-- Witness for C10: with `getUnrecorded` throwing (`storage 5`), the
trace `sync(); body-step` leaves promise `0` rejected and in
`activeSync`; the continuation `sync(); reset(); sync(); body-step`
returns promise `0` from both calls and makes no further contact. -/
theorem sync_rejection_sticky_witness :
    ((syncRun (fun _ => some (Err.storage 5)) SyncSt.init
        [SyncStep.callSync, SyncStep.bodyStep]).active = some 0 ∧
      plookup (syncRun (fun _ => some (Err.storage 5)) SyncSt.init
        [SyncStep.callSync, SyncStep.bodyStep]).promises 0 =
        some (PStatus.rejected (Err.storage 5))) ∧
    ((syncRun (fun _ => some (Err.storage 5))
        (syncRun (fun _ => some (Err.storage 5)) SyncSt.init
          [SyncStep.callSync, SyncStep.bodyStep])
        [SyncStep.callSync, SyncStep.callReset, SyncStep.callSync,
          SyncStep.bodyStep]).active = some 0 ∧
      plookup (syncRun (fun _ => some (Err.storage 5))
        (syncRun (fun _ => some (Err.storage 5)) SyncSt.init
          [SyncStep.callSync, SyncStep.bodyStep])
        [SyncStep.callSync, SyncStep.callReset, SyncStep.callSync,
          SyncStep.bodyStep]).promises 0 =
        some (PStatus.rejected (Err.storage 5)) ∧
      (syncRun (fun _ => some (Err.storage 5))
        (syncRun (fun _ => some (Err.storage 5)) SyncSt.init
          [SyncStep.callSync, SyncStep.bodyStep])
        [SyncStep.callSync, SyncStep.callReset, SyncStep.callSync,
          SyncStep.bodyStep]).calls =
        (syncRun (fun _ => some (Err.storage 5)) SyncSt.init
          [SyncStep.callSync, SyncStep.bodyStep]).calls ∧
      (syncRun (fun _ => some (Err.storage 5))
        (syncRun (fun _ => some (Err.storage 5)) SyncSt.init
          [SyncStep.callSync, SyncStep.bodyStep])
        [SyncStep.callSync, SyncStep.callReset, SyncStep.callSync,
          SyncStep.bodyStep]).returns =
        (syncRun (fun _ => some (Err.storage 5)) SyncSt.init
          [SyncStep.callSync, SyncStep.bodyStep]).returns ++
          List.replicate (syncCallCount [SyncStep.callSync,
            SyncStep.callReset, SyncStep.callSync, SyncStep.bodyStep]) 0) :=
  ⟨⟨by decide, by decide⟩,
    sync_rejection_sticky (fun _ => some (Err.storage 5))
      [SyncStep.callSync, SyncStep.bodyStep]
      [SyncStep.callSync, SyncStep.callReset, SyncStep.callSync,
        SyncStep.bodyStep] 0 (Err.storage 5) _ _ rfl rfl
      (by decide) (by decide)⟩

/-- **C4**: when the configured payload schema rejects the (normalised)
payload, the dispatcher throws `InvalidInput` carrying the validation
issues as its cause. The exception is raised before the event is built,
so the function returns no successor state at all — for every starting
state: no event is created or persisted, no snapshot changes in memory
or in the aggregate repository, and nothing reaches the event bus. -/
theorem dispatch_invalid_payload (cfg : StoreConfig) (ecfg : EventCfg)
    (auth : AuthCtx) (env : ApplyEnv) (newEventId : String) (now : DateRep)
    (aggregateId : String) (payload : JsValue) (lastEventId : Option String)
    (st : StoreSt) (schema : JsValue → Except (List String) JsValue)
    (issues : List String)
    (hschema : ecfg.payloadSchema = some schema)
    (hfail : schema (if jsTruthy payload then ensureEncodingSafety payload
      else payload) = .error issues) :
    dispatch cfg ecfg auth env newEventId now aggregateId payload
        lastEventId st =
      .error (.invalidInput ("Invalid payload for event " ++ ecfg.eventType)
        issues) := by
  simp [dispatch, hschema, hfail]

/-- Witness for C4: the string payload `"oops"` fails the object schema
of the sample `create` event; `dispatch` throws `InvalidInput` with the
schema's issues. -/
theorem dispatch_invalid_payload_witness :
    createCfg.payloadSchema = some objSchema ∧
    objSchema (if jsTruthy (JsValue.str "oops")
      then ensureEncodingSafety (JsValue.str "oops")
      else JsValue.str "oops") =
      .error ["Expected object, received something else"] ∧
    dispatch profileCfg createCfg
        { deviceId := "dev1", account := some { id := "acct1" } }
        ApplyEnv.ok "e7" t1 "c" (JsValue.str "oops") none stA =
      .error (.invalidInput
        ("Invalid payload for event " ++ createCfg.eventType)
        ["Expected object, received something else"]) :=
  ⟨rfl, rfl,
    dispatch_invalid_payload profileCfg createCfg
      { deviceId := "dev1", account := some { id := "acct1" } }
      ApplyEnv.ok "e7" t1 "c" (JsValue.str "oops") none stA objSchema
      ["Expected object, received something else"] rfl rfl⟩

/-- **C5**: the broker's `recordEvent` (i) does nothing — no server
contact, no state change — when the event already carries `recordedAt`,
(ii) when no account is present, or (iii) when no event-server adapter
is configured; (iv) when the server's `record` throws, the error is
swallowed: `recordEvent` resolves, the event stays unrecorded and the
state is unchanged; and (v) on success it invokes `markRecorded` with
the recorded event on the store registered for the event's aggregate
type. -/
theorem recordEvent_behaviour (cfgs : List (String × StoreConfig))
    (senv : ServerEnv) (renv : RecordEnv) (event : Event) (bst : BrokerSt) :
    (event.recordedAt.isSome →
      recordEvent cfgs senv renv event bst = .ok ⟨bst, []⟩) ∧
    (bst.account = none →
      recordEvent cfgs senv renv event bst = .ok ⟨bst, []⟩) ∧
    (bst.hasServer = false →
      recordEvent cfgs senv renv event bst = .ok ⟨bst, []⟩) ∧
    (∀ a, event.recordedAt = none → bst.account = some a →
      bst.hasServer = true → senv.recordResult = none →
      recordEvent cfgs senv renv event bst = .ok ⟨bst, [event]⟩) ∧
    (∀ a recEv storeSt cfg, event.recordedAt = none →
      bst.account = some a → bst.hasServer = true →
      senv.recordResult = some recEv →
      alookup bst.stores event.aggregateType = some storeSt →
      alookup cfgs event.aggregateType = some cfg →
      recordEvent cfgs senv renv event bst =
        .ok ⟨{ bst with
          stores := ainsert bst.stores event.aggregateType
            (markRecordedRun cfg renv recEv storeSt) }, [event]⟩) := by
  refine ⟨?_, ?_, ?_, ?_, ?_⟩
  · intro hrec
    simp [recordEvent, hrec]
  · intro hacc
    by_cases hrec : event.recordedAt.isSome
    · simp [recordEvent, hrec]
    · simp [recordEvent, hrec, hacc]
  · intro hsrv
    by_cases hrec : event.recordedAt.isSome
    · simp [recordEvent, hrec]
    · cases hacc : bst.account with
      | none => simp [recordEvent, hrec, hacc]
      | some a => simp [recordEvent, hrec, hacc, hsrv]
  · intro a hrec hacc hsrv hres
    simp [recordEvent, hrec, hacc, hsrv, hres]
  · intro a recEv storeSt cfg hrec hacc hsrv hres hstore hcfg
    simp [recordEvent, hrec, hacc, hsrv, hres, hstore, hcfg]

/-- Witness for C5: the success path on a concrete broker holding the
sample `profile` store: the recorded echo `evRecA` of `evCreateA` is
passed to `markRecorded` on that store, and exactly one `record` call
reaches the server. -/
theorem recordEvent_behaviour_witness :
    (evCreateA.recordedAt = none ∧
      brokerA.account = some { id := "acct1" } ∧
      brokerA.hasServer = true ∧
      alookup brokerA.stores evCreateA.aggregateType = some stA ∧
      alookup [("profile", profileCfg)] evCreateA.aggregateType =
        some profileCfg) ∧
    recordEvent [("profile", profileCfg)] { recordResult := some evRecA }
        RecordEnv.ok evCreateA brokerA =
      .ok ⟨{ brokerA with
        stores := ainsert brokerA.stores evCreateA.aggregateType
          (markRecordedRun profileCfg RecordEnv.ok evRecA stA) },
        [evCreateA]⟩ :=
  ⟨⟨rfl, rfl, rfl, rfl, rfl⟩,
    (recordEvent_behaviour [("profile", profileCfg)]
        { recordResult := some evRecA } RecordEnv.ok evCreateA
        brokerA).2.2.2.2 { id := "acct1" } evRecA stA profileCfg
      rfl rfl rfl rfl rfl rfl⟩

/-- **C6**: `markRecorded` (i) throws on an aggregate-type mismatch;
(ii) completes without error when no snapshot exists for the event's
aggregate, still delegating to the events repository's `markRecorded`
(shown with and without an events repository); (iii) when the snapshot
exists, it replaces it by a copy in which only `lastRecordedAt` (set to
the event's `recordedAt`) and `createdBy` (backfilled from the event
only when previously `none`) change — `id`, `createdOn`, `lastEventId`,
`createdAt`, `updatedAt`, `version` and the user data are untouched —
mirrors the same snapshot into the aggregate repository when one is
configured, delegates to the events repository, and leaves every other
aggregate's snapshot unchanged. -/
theorem markRecorded_frame (cfg : StoreConfig) (renv : RecordEnv)
    (event : Event) (st : StoreSt) :
    (event.aggregateType ≠ cfg.aggregateType →
      markRecorded cfg renv event st =
        .error (.typeMismatch cfg.aggregateType event.aggregateType)) ∧
    (event.aggregateType = cfg.aggregateType →
      alookup st.collection event.aggregateId = none →
      st.eventsRepo = none →
      markRecorded cfg renv event st = .ok st) ∧
    (∀ evs evs', event.aggregateType = cfg.aggregateType →
      alookup st.collection event.aggregateId = none →
      st.eventsRepo = some evs →
      eventsRepoMarkRecorded evs event.id event.recordedAt event.createdBy =
        .ok evs' →
      markRecorded cfg renv event st =
        .ok { st with eventsRepo := some evs' }) ∧
    (∀ curr evs evs', event.aggregateType = cfg.aggregateType →
      alookup st.collection event.aggregateId = some curr →
      cfg.stateOk curr.data = true →
      renv.aggUpdateFail = none →
      st.eventsRepo = some evs →
      eventsRepoMarkRecorded evs event.id event.recordedAt event.createdBy =
        .ok evs' →
      (markRecorded cfg renv event st = .ok
        { st with
          collection := ainsert st.collection event.aggregateId
            { curr with
              createdBy := curr.createdBy.orElse (fun _ => event.createdBy)
              lastRecordedAt := event.recordedAt }
          aggRepo := st.aggRepo.map (fun repo =>
            ainsert repo event.aggregateId
              { curr with
                createdBy := curr.createdBy.orElse (fun _ => event.createdBy)
                lastRecordedAt := event.recordedAt })
          eventsRepo := some evs' }) ∧
      ({ curr with
          createdBy := curr.createdBy.orElse (fun _ => event.createdBy)
          lastRecordedAt := event.recordedAt : Snapshot}.id = curr.id ∧
        { curr with
          createdBy := curr.createdBy.orElse (fun _ => event.createdBy)
          lastRecordedAt := event.recordedAt : Snapshot}.createdOn =
            curr.createdOn ∧
        { curr with
          createdBy := curr.createdBy.orElse (fun _ => event.createdBy)
          lastRecordedAt := event.recordedAt : Snapshot}.lastEventId =
            curr.lastEventId ∧
        { curr with
          createdBy := curr.createdBy.orElse (fun _ => event.createdBy)
          lastRecordedAt := event.recordedAt : Snapshot}.createdAt =
            curr.createdAt ∧
        { curr with
          createdBy := curr.createdBy.orElse (fun _ => event.createdBy)
          lastRecordedAt := event.recordedAt : Snapshot}.updatedAt =
            curr.updatedAt ∧
        { curr with
          createdBy := curr.createdBy.orElse (fun _ => event.createdBy)
          lastRecordedAt := event.recordedAt : Snapshot}.version =
            curr.version ∧
        { curr with
          createdBy := curr.createdBy.orElse (fun _ => event.createdBy)
          lastRecordedAt := event.recordedAt : Snapshot}.data = curr.data) ∧
      (∀ id', id' ≠ event.aggregateId →
        alookup (ainsert st.collection event.aggregateId
          { curr with
            createdBy := curr.createdBy.orElse (fun _ => event.createdBy)
            lastRecordedAt := event.recordedAt }) id' =
          alookup st.collection id')) := by
  refine ⟨?_, ?_, ?_, ?_⟩
  · intro hne
    simp [markRecorded, markRecordedCore, Except.mapError, hne]
  · intro heq hnone hrepo
    simp [markRecorded, markRecordedCore, Except.mapError, heq, hnone, hrepo]
  · intro evs evs' heq hnone hrepo hmark
    simp [markRecorded, markRecordedCore, Except.mapError, heq, hnone, hrepo,
      hmark]
  · intro curr evs evs' heq hcurr hok henv hrepo hmark
    refine ⟨?_, by simp, fun id' hne => alookup_ainsert_ne _ _ _ _ hne⟩
    cases hagg : st.aggRepo with
    | none =>
      simp [markRecorded, markRecordedCore, Except.mapError, heq, hcurr, hok,
        henv, hrepo, hmark, hagg]
    | some repo =>
      simp [markRecorded, markRecordedCore, Except.mapError, heq, hcurr, hok,
        henv, hrepo, hmark, hagg]

/-- Witness for C6: marking the echo `evRecA` as recorded on the store
`stA` updates only `lastRecordedAt` on `snapA` (its `createdBy` is
already set) and stamps the event in the events repository. -/
theorem markRecorded_frame_witness :
    (evRecA.aggregateType = profileCfg.aggregateType ∧
      alookup stA.collection evRecA.aggregateId = some snapA ∧
      eventsRepoMarkRecorded [evCreateA] evRecA.id evRecA.recordedAt
        evRecA.createdBy =
        .ok [{ evCreateA with recordedAt := some t1, createdBy := some "acct1" }]) ∧
    (markRecorded profileCfg RecordEnv.ok evRecA stA = .ok
      { stA with
        collection := ainsert stA.collection evRecA.aggregateId
          { snapA with
            createdBy := snapA.createdBy.orElse (fun _ => evRecA.createdBy)
            lastRecordedAt := evRecA.recordedAt }
        aggRepo := stA.aggRepo.map (fun repo =>
          ainsert repo evRecA.aggregateId
            { snapA with
              createdBy := snapA.createdBy.orElse (fun _ => evRecA.createdBy)
              lastRecordedAt := evRecA.recordedAt })
        eventsRepo := some
          [{ evCreateA with recordedAt := some t1, createdBy := some "acct1" }] } ∧
      ({ snapA with
          createdBy := snapA.createdBy.orElse (fun _ => evRecA.createdBy)
          lastRecordedAt := evRecA.recordedAt : Snapshot}.id = snapA.id ∧
        { snapA with
          createdBy := snapA.createdBy.orElse (fun _ => evRecA.createdBy)
          lastRecordedAt := evRecA.recordedAt : Snapshot}.createdOn =
            snapA.createdOn ∧
        { snapA with
          createdBy := snapA.createdBy.orElse (fun _ => evRecA.createdBy)
          lastRecordedAt := evRecA.recordedAt : Snapshot}.lastEventId =
            snapA.lastEventId ∧
        { snapA with
          createdBy := snapA.createdBy.orElse (fun _ => evRecA.createdBy)
          lastRecordedAt := evRecA.recordedAt : Snapshot}.createdAt =
            snapA.createdAt ∧
        { snapA with
          createdBy := snapA.createdBy.orElse (fun _ => evRecA.createdBy)
          lastRecordedAt := evRecA.recordedAt : Snapshot}.updatedAt =
            snapA.updatedAt ∧
        { snapA with
          createdBy := snapA.createdBy.orElse (fun _ => evRecA.createdBy)
          lastRecordedAt := evRecA.recordedAt : Snapshot}.version =
            snapA.version ∧
        { snapA with
          createdBy := snapA.createdBy.orElse (fun _ => evRecA.createdBy)
          lastRecordedAt := evRecA.recordedAt : Snapshot}.data =
            snapA.data) ∧
      (∀ id', id' ≠ evRecA.aggregateId →
        alookup (ainsert stA.collection evRecA.aggregateId
          { snapA with
            createdBy := snapA.createdBy.orElse (fun _ => evRecA.createdBy)
            lastRecordedAt := evRecA.recordedAt }) id' =
          alookup stA.collection id')) :=
  ⟨⟨rfl, rfl, rfl⟩,
    (markRecorded_frame profileCfg RecordEnv.ok evRecA stA).2.2.2 snapA
      [evCreateA]
      [{ evCreateA with recordedAt := some t1, createdBy := some "acct1" }]
      rfl rfl rfl rfl rfl rfl⟩

theorem digitChar_isDigit {n : Nat} (h : n < 10) :
    (digitChar n).isDigit = true := by
  interval_cases n <;> decide

theorem digitVal_digitChar {n : Nat} (h : n < 10) :
    digitVal (digitChar n) = n := by
  interval_cases n <;> decide

theorem toISOChars_eq (d : DateRep) :
    toISOChars d = [digitChar (d.year / 1000), digitChar ((d.year / 100) % 10),
      digitChar ((d.year / 10) % 10), digitChar (d.year % 10), '-',
      digitChar (d.month / 10), digitChar (d.month % 10), '-',
      digitChar (d.day / 10), digitChar (d.day % 10), 'T',
      digitChar (d.hour / 10), digitChar (d.hour % 10), ':',
      digitChar (d.minute / 10), digitChar (d.minute % 10), ':',
      digitChar (d.second / 10), digitChar (d.second % 10), '.',
      digitChar (d.milli / 100), digitChar ((d.milli / 10) % 10),
      digitChar (d.milli % 10), 'Z'] := by
  simp [toISOChars, pad4, pad2, pad3]

theorem isoShape_toISO {d : DateRep} (h : d.valid) :
    isoShape (toISOChars d) = true := by
  obtain ⟨hy, hmo, hda, hho, hmi, hse, hms⟩ := h
  rw [toISOChars_eq]
  simp [isoShape,
    digitChar_isDigit (show d.year / 1000 < 10 by omega),
    digitChar_isDigit (show (d.year / 100) % 10 < 10 by omega),
    digitChar_isDigit (show (d.year / 10) % 10 < 10 by omega),
    digitChar_isDigit (show d.year % 10 < 10 by omega),
    digitChar_isDigit (show d.month / 10 < 10 by omega),
    digitChar_isDigit (show d.month % 10 < 10 by omega),
    digitChar_isDigit (show d.day / 10 < 10 by omega),
    digitChar_isDigit (show d.day % 10 < 10 by omega),
    digitChar_isDigit (show d.hour / 10 < 10 by omega),
    digitChar_isDigit (show d.hour % 10 < 10 by omega),
    digitChar_isDigit (show d.minute / 10 < 10 by omega),
    digitChar_isDigit (show d.minute % 10 < 10 by omega),
    digitChar_isDigit (show d.second / 10 < 10 by omega),
    digitChar_isDigit (show d.second % 10 < 10 by omega),
    digitChar_isDigit (show d.milli / 100 < 10 by omega),
    digitChar_isDigit (show (d.milli / 10) % 10 < 10 by omega),
    digitChar_isDigit (show d.milli % 10 < 10 by omega)]

theorem parseIso_toISO {d : DateRep} (h : d.valid) :
    parseIso (toISOChars d) = d := by
  obtain ⟨hy, hmo, hda, hho, hmi, hse, hms⟩ := h
  rw [toISOChars_eq]
  simp only [parseIso,
    digitVal_digitChar (show d.year / 1000 < 10 by omega),
    digitVal_digitChar (show (d.year / 100) % 10 < 10 by omega),
    digitVal_digitChar (show (d.year / 10) % 10 < 10 by omega),
    digitVal_digitChar (show d.year % 10 < 10 by omega),
    digitVal_digitChar (show d.month / 10 < 10 by omega),
    digitVal_digitChar (show d.month % 10 < 10 by omega),
    digitVal_digitChar (show d.day / 10 < 10 by omega),
    digitVal_digitChar (show d.day % 10 < 10 by omega),
    digitVal_digitChar (show d.hour / 10 < 10 by omega),
    digitVal_digitChar (show d.hour % 10 < 10 by omega),
    digitVal_digitChar (show d.minute / 10 < 10 by omega),
    digitVal_digitChar (show d.minute % 10 < 10 by omega),
    digitVal_digitChar (show d.second / 10 < 10 by omega),
    digitVal_digitChar (show d.second % 10 < 10 by omega),
    digitVal_digitChar (show d.milli / 100 < 10 by omega),
    digitVal_digitChar (show (d.milli / 10) % 10 < 10 by omega),
    digitVal_digitChar (show d.milli % 10 < 10 by omega)]
  have hd : d = { year := d.year, month := d.month, day := d.day, hour := d.hour, minute := d.minute, second := d.second, milli := d.milli } := rfl
  rw [hd]
  simp only [DateRep.mk.injEq]
  refine ⟨?_, ?_, ?_, ?_, ?_, ?_, ?_⟩ <;> omega

theorem reviveFields_keys (fs : List (String × JValue)) :
    (reviveFields fs).keys = fs.map Prod.fst := by
  induction fs with
  | nil => rfl
  | cons hd tl ih =>
    obtain ⟨k, j⟩ := hd
    simp [reviveFields, JsFields.keys, ih]

theorem jsonOfFields_mem {k : String} {v : JsValue} {j : JValue} :
    ∀ {fields : JsFields}, fields.mem k v → jsonOf v = some j →
      (k, j) ∈ jsonOfFields fields
  | .nil, hm, _ => hm.elim
  | .cons k1 v1 tl, hm, hj => by
    rcases hm with ⟨rfl, rfl⟩ | hm
    · simp [jsonOfFields, hj]
    · cases hv1 : jsonOf v1 with
      | none => simpa [jsonOfFields, hv1] using jsonOfFields_mem hm hj
      | some j1 => simp [jsonOfFields, hv1, jsonOfFields_mem hm hj]

theorem reviveFields_mem {fs : List (String × JValue)} {k : String}
    {j : JValue} (hm : (k, j) ∈ fs) :
    (reviveFields fs).mem k (revive j) := by
  induction fs with
  | nil => cases hm
  | cons hd tl ih =>
    obtain ⟨k1, j1⟩ := hd
    rcases List.mem_cons.mp hm with heq | hm1
    · injection heq with h1 h2
      subst h1
      subst h2
      exact Or.inl ⟨rfl, rfl⟩
    · exact Or.inr (ih hm1)

theorem mem_keys_jsonOfFields {k : String} :
    ∀ {fields : JsFields}, k ∈ (jsonOfFields fields).map Prod.fst →
      ∃ v j, fields.mem k v ∧ jsonOf v = some j
  | .nil, h => by simp [jsonOfFields] at h
  | .cons k1 v1 tl, h => by
    cases hv1 : jsonOf v1 with
    | none =>
      rw [jsonOfFields, hv1] at h
      obtain ⟨v, j, hm, hj⟩ := mem_keys_jsonOfFields h
      exact ⟨v, j, Or.inr hm, hj⟩
    | some j1 =>
      rw [jsonOfFields, hv1] at h
      rw [List.map_cons] at h
      rcases List.mem_cons.mp h with heq | h1
      · exact ⟨v1, j1, Or.inl ⟨heq.symm, rfl⟩, hv1⟩
      · obtain ⟨v, j, hm, hj⟩ := mem_keys_jsonOfFields h1
        exact ⟨v, j, Or.inr hm, hj⟩

theorem JsFields.mem_keys {k : String} {v : JsValue} :
    ∀ {fields : JsFields}, fields.mem k v → k ∈ fields.keys
  | .nil, h => h.elim
  | .cons k1 v1 tl, h => by
    rcases h with ⟨rfl, _⟩ | h
    · simp [JsFields.keys]
    · simp [JsFields.keys, JsFields.mem_keys h]

theorem fields_mem_unique {k : String} {v v' : JsValue} :
    ∀ {fields : JsFields}, fields.keys.Nodup → fields.mem k v →
      fields.mem k v' → v = v'
  | .nil, _, h1, _ => h1.elim
  | .cons k1 v1 tl, hnd, h1, h2 => by
    rw [JsFields.keys, List.nodup_cons] at hnd
    rcases h1 with ⟨hk1, hv1⟩ | h1 <;> rcases h2 with ⟨hk2, hv2⟩ | h2
    · rw [← hv1, ← hv2]
    · exact absurd (hk1 ▸ JsFields.mem_keys h2) hnd.1
    · exact absurd (hk2 ▸ JsFields.mem_keys h1) hnd.1
    · exact fields_mem_unique hnd.2 h1 h2

/-- **C9**: `ensureEncodingSafety` is the JSON round trip with the ISO
date reviver: on an object payload it (i) returns the object obtained by
serialising and reviving the fields; (ii) drops every `undefined`-valued
field; (iii) turns every string field matching the
`YYYY-MM-DDTHH:MM:SS.sssZ` pattern into the corresponding `Date`; and
(iv) round-trips every `Date`-valued field (any timestamp printable in
the four-digit-year ISO format) to an equal `Date` — in particular for a
payload of JSON-safe values and `Date`s, each `Date` field survives
unchanged. -/
theorem ensureEncodingSafety_spec (fields : JsFields)
    (hnd : fields.keys.Nodup) :
    ensureEncodingSafety (.obj fields) =
      .obj (reviveFields (jsonOfFields fields)) ∧
    (∀ k, fields.mem k .undefinedV →
      ¬ k ∈ (reviveFields (jsonOfFields fields)).keys) ∧
    (∀ k s, fields.mem k (.str s) → isoShape s.data = true →
      (reviveFields (jsonOfFields fields)).mem k (.date (parseIso s.data))) ∧
    (∀ k d, fields.mem k (.date d) → d.valid →
      (reviveFields (jsonOfFields fields)).mem k (.date d)) := by
  refine ⟨?_, ?_, ?_, ?_⟩
  · simp [ensureEncodingSafety, jsonOf, revive]
  · intro k hk hkeys
    rw [reviveFields_keys] at hkeys
    obtain ⟨v, j, hm, hj⟩ := mem_keys_jsonOfFields hkeys
    rw [fields_mem_unique hnd hm hk] at hj
    cases hj
  · intro k s hm hiso
    have h1 := jsonOfFields_mem hm (show jsonOf (.str s) = some (.str s) from rfl)
    have h2 := reviveFields_mem h1
    rwa [show revive (.str s) = .date (parseIso s.data) from by
      simp [revive, hiso]] at h2
  · intro k d hm hv
    have h1 := jsonOfFields_mem hm
      (show jsonOf (.date d) = some (.str (toISOString d)) from rfl)
    have h2 := reviveFields_mem h1
    have hshape : isoShape (toISOString d).data = true := isoShape_toISO hv
    rwa [show revive (.str (toISOString d)) = .date d from by
      simp [revive, hshape]
      exact parseIso_toISO hv] at h2

/-- Witness for C9: a concrete payload with a `Date` field, an
`undefined` hole and an ISO-patterned string field. -/
theorem ensureEncodingSafety_spec_witness :
    (JsFields.cons "a" (.date t0) (JsFields.cons "b" .undefinedV
      (JsFields.cons "c" (.str "2024-01-02T03:04:05.006Z")
        JsFields.nil))).keys.Nodup ∧
    (ensureEncodingSafety (.obj (JsFields.cons "a" (.date t0)
        (JsFields.cons "b" .undefinedV
          (JsFields.cons "c" (.str "2024-01-02T03:04:05.006Z")
            JsFields.nil)))) =
      .obj (reviveFields (jsonOfFields (JsFields.cons "a" (.date t0)
        (JsFields.cons "b" .undefinedV
          (JsFields.cons "c" (.str "2024-01-02T03:04:05.006Z")
            JsFields.nil))))) ∧
    (∀ k, (JsFields.cons "a" (.date t0) (JsFields.cons "b" .undefinedV
        (JsFields.cons "c" (.str "2024-01-02T03:04:05.006Z")
          JsFields.nil))).mem k .undefinedV →
      ¬ k ∈ (reviveFields (jsonOfFields (JsFields.cons "a" (.date t0)
        (JsFields.cons "b" .undefinedV
          (JsFields.cons "c" (.str "2024-01-02T03:04:05.006Z")
            JsFields.nil))))).keys) ∧
    (∀ k s, (JsFields.cons "a" (.date t0) (JsFields.cons "b" .undefinedV
        (JsFields.cons "c" (.str "2024-01-02T03:04:05.006Z")
          JsFields.nil))).mem k (.str s) → isoShape s.data = true →
      (reviveFields (jsonOfFields (JsFields.cons "a" (.date t0)
        (JsFields.cons "b" .undefinedV
          (JsFields.cons "c" (.str "2024-01-02T03:04:05.006Z")
            JsFields.nil))))).mem k (.date (parseIso s.data))) ∧
    (∀ k d, (JsFields.cons "a" (.date t0) (JsFields.cons "b" .undefinedV
        (JsFields.cons "c" (.str "2024-01-02T03:04:05.006Z")
          JsFields.nil))).mem k (.date d) → d.valid →
      (reviveFields (jsonOfFields (JsFields.cons "a" (.date t0)
        (JsFields.cons "b" .undefinedV
          (JsFields.cons "c" (.str "2024-01-02T03:04:05.006Z")
            JsFields.nil))))).mem k (.date d))) :=
  ⟨by decide,
    ensureEncodingSafety_spec
      (JsFields.cons "a" (.date t0) (JsFields.cons "b" .undefinedV
        (JsFields.cons "c" (.str "2024-01-02T03:04:05.006Z")
          JsFields.nil))) (by decide)⟩

end EventSync
